import Mathlib

/-!
Shallow embedding of the `Application` bootstrap/lifecycle orchestrator of
`src/js/components/application.js` (the bumblebee repository): the `Container`
registries, the manifest-loading pipeline (`_checkPrescription`, `_loadModules`
dispatch, the `$.when` aggregation of `loadModules`, `_registerLoadedModules`),
the activation cascade (`activate`, `_registerBarbarianChildren`) and the
barbarian-registry lookup (`getPluginOrWidgetName`,
`getPluginOrWidgetByPubSubKey`, `isActivated`).

JavaScript plain objects used as string-keyed maps are embedded as association
lists with JavaScript property semantics: assignment to an existing key
overwrites in place (keeping enumeration position), assignment to a new key
appends, `delete` removes, enumeration (`_.pairs`, `_.each`) follows list
order.
-/

namespace Bumblebee

/-- Property read on a JS object embedded as an association list
(`o[k]`, `undefined` becomes `none`). -/
def jsLookup {α : Type} (l : List (String × α)) (k : String) : Option α :=
  (l.find? (fun p => p.1 == k)).map (fun p => p.2)

/-- Property assignment on a JS object embedded as an association list
(`o[k] = v`): overwrite in place when the key exists, append otherwise. -/
def jsAssign {α : Type} (l : List (String × α)) (k : String) (v : α) :
    List (String × α) :=
  if l.any (fun p => p.1 == k) then
    l.map (fun p => if p.1 == k then (k, v) else p)
  else
    l ++ [(k, v)]

/-- Property deletion on a JS object embedded as an association list
(`delete o[k]`). -/
def jsDelete {α : Type} (l : List (String × α)) (k : String) :
    List (String × α) :=
  l.filter (fun p => p.1 != k)

/-- The `Container` of application.js: a plain JS object used as a
name-to-instance map, with `has`/`get`/`remove`/`add`. -/
structure Container (α : Type) where
  container : List (String × α)

/-- `Container.prototype.has`: `this.container.hasOwnProperty(name)`. -/
def Container.has {α : Type} (c : Container α) (name : String) : Bool :=
  c.container.any (fun p => p.1 == name)

/-- `Container.prototype.get`: `this.container[name]` (undefined when absent). -/
def Container.get {α : Type} (c : Container α) (name : String) : Option α :=
  jsLookup c.container name

/-- `Container.prototype.remove`: `delete this.container[name]`. -/
def Container.remove {α : Type} (c : Container α) (name : String) : Container α :=
  ⟨jsDelete c.container name⟩

/-- `Container.prototype.add`: `this.container[name] = obj`. -/
def Container.add {α : Type} (c : Container α) (name : String) (obj : α) :
    Container α :=
  ⟨jsAssign c.container name obj⟩

/-- The empty `Container` (`this.container = {}`). -/
def Container.empty {α : Type} : Container α := ⟨[]⟩

/-- The symbolic names currently registered in a `Container`. -/
def Container.keys {α : Type} (c : Container α) : List String :=
  c.container.map (fun p => p.1)

/-! ## JavaScript values resolved by the loader

`_registerLoadedModules` inspects the resolved value's truthiness, its
`prototype` property's truthiness, and `hasOwnProperty` for the component's
own symbolic name; `new module()` always produces an object.  We embed the
resolved values as a small JS-value datatype carrying exactly those
observations: objects (and functions, which are objects with a truthy
`prototype` when constructor-shaped) carry their own fields and the
truthiness of their `prototype` property; `new module()` is embedded as
`instOf module` (always truthy, no own properties of interest). -/

inductive JSVal where
  | undefined : JSVal
  | vnull : JSVal
  | boolean : Bool → JSVal
  | num : Int → JSVal
  | str : String → JSVal
  | obj : List (String × JSVal) → Bool → JSVal
  | instOf : JSVal → JSVal

/-- JS truthiness of an embedded value. -/
def JSVal.truthy : JSVal → Bool
  | .undefined => false
  | .vnull => false
  | .boolean b => b
  | .num n => n != 0
  | .str s => s != ""
  | .obj _ _ => true
  | .instOf _ => true

/-- Truthiness of `v.prototype`: only objects/functions carry a `prototype`
property; for every other value the read yields `undefined` (falsy). -/
def JSVal.protoTruthy : JSVal → Bool
  | .obj _ p => p
  | _ => false

/-- `v.hasOwnProperty(key)`.  Boxed string primitives own `length` and their
canonical numeric indices; other primitives own nothing relevant. -/
def JSVal.hasOwn : JSVal → String → Bool
  | .obj fields _, key => fields.any (fun p => p.1 == key)
  | .str s, key =>
      key == "length" ||
        (match key.toNat? with
         | some i => decide (i < s.length)
         | none => false)
  | _, _ => false

/-- `v[key]` (property read, `undefined` when absent). -/
def JSVal.getProp : JSVal → String → JSVal
  | .obj fields _, key => (jsLookup fields key).getD .undefined
  | .str s, key =>
      if key == "length" then .num s.length
      else
        (match key.toNat? with
         | some i => if i < s.length then .str (String.mk [s.toList.getD i ' ']) else .undefined
         | none => .undefined)
  | _, _ => .undefined

/-- `_.isString(v)`. -/
def JSVal.isStr : JSVal → Bool
  | .str _ => true
  | _ => false

/-! ## Loading pipeline -/

/-- Events logged through `console.warn` during `_registerLoadedModules`. -/
inductive LoadEvent where
  | warnExisting : String → String → LoadEvent
  | warnEmptyModule : String → LoadEvent
  | warnNullInstance : String → LoadEvent
deriving DecidableEq

/-- The containers populated by loading: the application's own four
`Container`s plus the BeeHive's service and object stores.  The BeeHive
(`js/components/beehive`, not part of this repository's sources) is modelled
from the spec as a black box exposing `has/get/add/remove` for services and
for objects, i.e. as two more `Container`s. -/
structure LoadState where
  controllers : Container JSVal
  modules : Container JSVal
  services : Container JSVal
  objects : Container JSVal
  plugins : Container JSVal
  widgets : Container JSVal

/-- The fresh state produced by `initialize`. -/
def LoadState.init : LoadState :=
  ⟨.empty, .empty, .empty, .empty, .empty, .empty⟩

/-- `hasKey` for a section, as bound in `_registerLoadedModules`. -/
def LoadState.sectionHas (st : LoadState) (section' : String) (key : String) : Bool :=
  if section' == "controllers" then st.controllers.has key
  else if section' == "services" then st.services.has key
  else if section' == "objects" then st.objects.has key
  else if section' == "modules" then st.modules.has key
  else if section' == "widgets" then st.widgets.has key
  else st.plugins.has key

/-- `removeKey` for a section, as bound in `_registerLoadedModules`. -/
def LoadState.sectionRemove (st : LoadState) (section' : String) (key : String) : LoadState :=
  if section' == "controllers" then { st with controllers := st.controllers.remove key }
  else if section' == "services" then { st with services := st.services.remove key }
  else if section' == "objects" then { st with objects := st.objects.remove key }
  else if section' == "modules" then { st with modules := st.modules.remove key }
  else if section' == "widgets" then { st with widgets := st.widgets.remove key }
  else { st with plugins := st.plugins.remove key }

/-- `addKey` for a section, as bound in `_registerLoadedModules`. -/
def LoadState.sectionAdd (st : LoadState) (section' : String) (key : String) (v : JSVal) :
    LoadState :=
  if section' == "controllers" then { st with controllers := st.controllers.add key v }
  else if section' == "services" then { st with services := st.services.add key v }
  else if section' == "objects" then { st with objects := st.objects.add key v }
  else if section' == "modules" then { st with modules := st.modules.add key v }
  else if section' == "widgets" then { st with widgets := st.widgets.add key v }
  else { st with plugins := st.plugins.add key v }

/-- `get` through a section's container (used to state what registration stored). -/
def LoadState.sectionGet (st : LoadState) (section' : String) (key : String) : Option JSVal :=
  if section' == "controllers" then st.controllers.get key
  else if section' == "services" then st.services.get key
  else if section' == "objects" then st.objects.get key
  else if section' == "modules" then st.modules.get key
  else if section' == "widgets" then st.widgets.get key
  else st.plugins.get key

/-- The sections `_registerLoadedModules` accepts; any other section name
throws `"Unknown section"`. -/
def knownSections : List String :=
  ["controllers", "services", "objects", "modules", "widgets", "plugins"]

/-- The generic `createInstance` of `_registerLoadedModules` (every section
except `modules`): warn-and-return-undefined on a falsy value, `new module()`
when `module.prototype` is truthy, the nested `module[key]` when the value
owns a property named like the component, else the value itself. -/
def createInstance (key : String) (module : JSVal) : JSVal :=
  if !module.truthy then .undefined
  else if module.protoTruthy then .instOf module
  else if module.hasOwn key then module.getProp key
  else module

/-- `createInstance` as actually bound for a given section: the `modules`
section overrides it with the identity. -/
def sectionCreateInstance (section' : String) (key : String) (module : JSVal) : JSVal :=
  if section' == "modules" then module else createInstance key module

/-- The `_.each(_.pairs(modules), ...)` registration loop of
`_registerLoadedModules`: warn and remove an existing key, build the
instance, skip (with a warning) a falsy instance, else add it. -/
def registerLoop (section' : String) : LoadState → List (String × JSVal) →
    LoadState × List LoadEvent
  | st, [] => (st, [])
  | st, (key, module) :: rest =>
    let st1 := if st.sectionHas section' key then st.sectionRemove section' key else st
    let evs1 : List LoadEvent :=
      if st.sectionHas section' key then [LoadEvent.warnExisting section' key] else []
    let evs2 : List LoadEvent :=
      if section' != "modules" && !module.truthy then [LoadEvent.warnEmptyModule key]
      else []
    let inst := sectionCreateInstance section' key module
    if !inst.truthy then
      let (st2, evs3) := registerLoop section' st1 rest
      (st2, evs1 ++ evs2 ++ [LoadEvent.warnNullInstance key] ++ evs3)
    else
      let (st2, evs3) := registerLoop section' (st1.sectionAdd section' key inst) rest
      (st2, evs1 ++ evs2 ++ evs3)

/-- `_registerLoadedModules(section, modules)`: dispatch on the section
(throwing on an unknown one) and run the registration loop. -/
def registerLoadedModules (st : LoadState) (section' : String)
    (modules : List (String × JSVal)) : Except String (LoadState × List LoadEvent) :=
  if knownSections.contains section' then
    .ok (registerLoop section' st modules)
  else
    .error ("Unknown section: " ++ section')

/-- A manifest group as handed to `_checkPrescription` and `_loadModules`:
the `_.pairs` of the group object, each pair a symbolic name and a resolvable
identifier (embedded as JS values so that the string checks are meaningful). -/
def Prescription : Type := List (JSVal × JSVal)

/-- The `core` part of a manifest (`config['core']`), with optional groups. -/
structure CoreConfig where
  controllers : Option Prescription
  modules : Option Prescription
  services : Option Prescription
  objects : Option Prescription

/-- A manifest (`config`), with optional `core`, `plugins` and `widgets`. -/
structure Config where
  core : Option CoreConfig
  plugins : Option Prescription
  widgets : Option Prescription

/-- `_checkPrescription`: every symbolic name and every identifier must be a
string, otherwise the call throws synchronously. -/
def checkPrescription (p : Prescription) : Bool :=
  p.all (fun m => m.1.isStr && m.2.isStr)

/-- One optional section paired with its fixed name, in manifest order. -/
def optSection (name : String) : Option Prescription → List (String × Prescription)
  | some p => [(name, p)]
  | none => []

/-- The sections present in a manifest, in the exact order `loadModules`
iterates them: `core`'s `controllers`, `modules`, `services`, `objects`,
then `plugins`, then `widgets`. -/
def presentSections (config : Config) : List (String × Prescription) :=
  (match config.core with
   | some core =>
       optSection "controllers" core.controllers ++ optSection "modules" core.modules ++
         optSection "services" core.services ++ optSection "objects" core.objects
   | none => []) ++
    optSection "plugins" config.plugins ++ optSection "widgets" config.widgets

/-- The synchronous phase of `loadModules`: walk the present sections in
order; for each, `_loadModules` first runs `_checkPrescription` (throwing
synchronously on a violation, which aborts the walk) and then dispatches the
asynchronous `require` for that section.  Returns the sections dispatched so
far and whether the walk completed without a throw. -/
def dispatchLoop : List (String × Prescription) → List (String × Prescription) × Bool
  | [] => ([], true)
  | (name, p) :: rest =>
    if checkPrescription p then
      let (d, ok) := dispatchLoop rest
      ((name, p) :: d, ok)
    else ([], false)

/-- The symbolic names of a validated prescription (`_.keys`). -/
def prescriptionNames (p : Prescription) : List String :=
  p.filterMap (fun m => match m.1 with | .str s => some s | _ => none)

/-- The `callback` of `_loadModules`: zip the resolved values positionally
back onto the symbolic names, building the `ret` object by successive
property assignment. -/
def buildRet (names : List String) (values : List JSVal) : List (String × JSVal) :=
  names.enum.foldl (fun acc p => jsAssign acc p.2 (values.getD p.1 .undefined)) []

/-- A dispatched section's eventual outcome: `some values` when the resolver
succeeded (values positionally matching the requested identifiers), `none`
when the section rejected (an unresolvable identifier, or the section's
timeout elapsing first). -/
def Outcomes : Type := String → Option (List JSVal)

/-- The result of a `loadModules` call, as observed by the caller and by the
Containers: a synchronous validation throw, a rejected aggregate promise, or
a resolved one.  In each case `dispatched` lists the sections whose
asynchronous resolution was actually started. -/
inductive LoadResult where
  | thrown : List String → LoadResult
  | rejected : List String → LoadState → List LoadEvent → LoadResult
  | registrationThrew : List String → LoadResult
  | resolved : List String → LoadState → List LoadEvent → LoadResult

/-- Registration of all dispatched sections in dispatch order, as performed
by the `.then` success callback of `loadModules`. -/
def registerAll (st : LoadState) (o : Outcomes) :
    List (String × Prescription) → Except String (LoadState × List LoadEvent)
  | [] => .ok (st, [])
  | (name, p) :: rest =>
    match registerLoadedModules st name (buildRet (prescriptionNames p) ((o name).getD [])) with
    | .error e => .error e
    | .ok (st1, evs1) =>
      match registerAll st1 o rest with
      | .error e => .error e
      | .ok (st2, evs2) => .ok (st2, evs1 ++ evs2)

/-- `loadModules(config)` end to end.  The synchronous phase dispatches the
present sections in order until a validation throw.  The aggregate
`$.when.apply($, promises)` then rejects as soon as any dispatched section's
promise rejects — in which case its `.then` success callback never runs and
nothing is registered — and resolves only when every section resolved.  Its
success callback receives, per jQuery's argument-spreading convention, one
array `[sectionName, ret]` per promise when two or more promises were
aggregated, but the two resolve arguments spread directly (a string and an
object, neither of which passes the `_.isArray` guard) when exactly one
promise was aggregated; each argument passing the guard is registered via
`_registerLoadedModules`. -/
def loadModules (st : LoadState) (config : Config) (o : Outcomes) : LoadResult :=
  let (disp, ok) := dispatchLoop (presentSections config)
  if !ok then .thrown (disp.map (fun g => g.1))
  else if disp.any (fun g => (o g.1).isNone) then
    .rejected (disp.map (fun g => g.1)) st []
  else if disp.length == 1 then
    .resolved (disp.map (fun g => g.1)) st []
  else
    match registerAll st o disp with
    | .error _ => .registrationThrew (disp.map (fun g => g.1))
    | .ok (st', evs) => .resolved (disp.map (fun g => g.1)) st' evs

/-- `hasModule` on the loaded state. -/
def LoadState.hasModule (st : LoadState) (name : String) : Bool :=
  st.modules.has name

/-- `getModule` on the loaded state. -/
def LoadState.getModule (st : LoadState) (name : String) : Option JSVal :=
  st.modules.get name

/-- `getPlugin` on the loaded state. -/
def LoadState.getPlugin (st : LoadState) (name : String) : Option JSVal :=
  st.plugins.get name

/-! ## Activation cascade

A registered component is embedded by what the cascade can observe of it: an
identity, whether it exposes an `activate` property (`'activate' in plugin`),
whether calling `activate` throws, the identifier its pub/sub collaborator
reports right after its activation (`getService('PubSub').getCurrentPubSubKey().getId()`),
and the children collection its `activate` returns (absent when the returned
value is falsy).  A child entry carries its collection key, its optional
`name` property, its own pub/sub identifier and its `object`. -/

inductive Comp where
  | mk : Nat → Bool → Bool → String →
      Option (List (String × Option String × String × Comp)) → Comp

/-- The identity of a component instance (used only to tell instances apart). -/
def Comp.ident : Comp → Nat
  | .mk i _ _ _ _ => i

/-- `'activate' in plugin`. -/
def Comp.hasActivate : Comp → Bool
  | .mk _ h _ _ _ => h

/-- Whether calling this component's `activate` throws. -/
def Comp.throws : Comp → Bool
  | .mk _ _ t _ _ => t

/-- The pub/sub key identifier reported for this component's activation. -/
def Comp.token : Comp → String
  | .mk _ _ _ tk _ => tk

/-- The children collection returned by `activate` (`none` when falsy). -/
def Comp.children : Comp → Option (List (String × Option String × String × Comp))
  | .mk _ _ _ _ cs => cs

/-- `child.name || key`: the `name` property when truthy, else the key. -/
def jsOrName : Option String → String → String
  | some s, k => if s == "" then k else s
  | none, k => k

/-- Observable steps of the activation cascade, in execution order. -/
inductive ActEvent where
  | beehiveActivate : ActEvent
  | controllerActivate : String → ActEvent
  | moduleActivate : String → ActEvent
  | getHardened : Nat → ActEvent
  | pluginActivate : String → Nat → ActEvent
  | widgetActivate : String → Nat → ActEvent
  | registerToken : String → String → ActEvent
  | childAdded : String → String → ActEvent
  | errorLogged : String → ActEvent
  | flagSet : ActEvent
deriving DecidableEq

/-- The application state the activation cascade reads and mutates.  Fresh
Hardened Registry Views (`beehive.getHardenedInstance()`) are numbered by a
counter so that distinct calls yield distinct views. -/
structure App where
  controllers : Container Comp
  modules : Container Comp
  plugins : Container Comp
  widgets : Container Comp
  barbarianRegistry : List (String × String)
  activated : Bool
  hardenedCounter : Nat

/-- `_registerBarbarianChildren(category, prefix, children)`: derive each
child's qualified name, record its pub/sub token in the barbarian registry,
and add the child object to the matching Container — unless that name is
already present, in which case an `Error` is thrown immediately (the
registry entry for the colliding child has already been made, and the
remaining children are not processed). -/
def registerBarbarianChildren (category : String) (pfx : String) :
    List (String × Option String × String × Comp) → App →
      App × List ActEvent × Option String
  | [], app => (app, [], none)
  | (key, cname, ctok, cobj) :: rest, app =>
    let name := pfx ++ "-" ++ jsOrName cname key
    let qualified := category ++ ":" ++ name
    let app1 := { app with barbarianRegistry := jsAssign app.barbarianRegistry ctok qualified }
    if category == "widget" then
      if app1.widgets.has name then
        (app1, [.registerToken ctok qualified],
          some ("There already exists a widget with name: " ++ name))
      else
        let app2 := { app1 with widgets := app1.widgets.add name cobj }
        let (app3, evs, err) := registerBarbarianChildren category pfx rest app2
        (app3, .registerToken ctok qualified :: .childAdded "widget" name :: evs, err)
    else
      if app1.plugins.has name then
        (app1, [.registerToken ctok qualified],
          some ("There already exists a plugin with name: " ++ name))
      else
        let app2 := { app1 with plugins := app1.plugins.add name cobj }
        let (app3, evs, err) := registerBarbarianChildren category pfx rest app2
        (app3, .registerToken ctok qualified :: .childAdded "plugin" name :: evs, err)

/-- The body of the plugins loop of `activate`, for one enumerated entry:
when the plugin exposes `activate`, obtain a fresh Hardened Registry View,
call `activate` on it (a throw is caught and logged), record the pub/sub
token, and register any returned children — a throw from that registration
is caught by the same per-component handler and logged. -/
def pluginBody (app : App) (el : String × Comp) : App × List ActEvent :=
  let name := el.1
  let c := el.2
  if c.hasActivate then
    let hid := app.hardenedCounter
    let app0 := { app with hardenedCounter := hid + 1 }
    if c.throws then (app0, [.getHardened hid, .errorLogged name])
    else
      let qualified := "plugin:" ++ name
      let app1 := { app0 with
        barbarianRegistry := jsAssign app0.barbarianRegistry c.token qualified }
      let evs1 := [ActEvent.getHardened hid, .pluginActivate name hid,
        .registerToken c.token qualified]
      match c.children with
      | none => (app1, evs1)
      | some cs =>
        match registerBarbarianChildren "plugin" name cs app1 with
        | (app2, evs2, none) => (app2, evs1 ++ evs2)
        | (app2, evs2, some _) => (app2, evs1 ++ evs2 ++ [.errorLogged name])
  else (app, [])

/-- The body of the widgets loop of `activate` (same shape as the plugins
loop, with the `widget` category). -/
def widgetBody (app : App) (el : String × Comp) : App × List ActEvent :=
  let name := el.1
  let c := el.2
  if c.hasActivate then
    let hid := app.hardenedCounter
    let app0 := { app with hardenedCounter := hid + 1 }
    if c.throws then (app0, [.getHardened hid, .errorLogged name])
    else
      let qualified := "widget:" ++ name
      let app1 := { app0 with
        barbarianRegistry := jsAssign app0.barbarianRegistry c.token qualified }
      let evs1 := [ActEvent.getHardened hid, .widgetActivate name hid,
        .registerToken c.token qualified]
      match c.children with
      | none => (app1, evs1)
      | some cs =>
        match registerBarbarianChildren "widget" name cs app1 with
        | (app2, evs2, none) => (app2, evs1 ++ evs2)
        | (app2, evs2, some _) => (app2, evs1 ++ evs2 ++ [.errorLogged name])
  else (app, [])

/-- `_.each` over a snapshot of a barbarian Container's pairs, threading the
state through the per-entry body. -/
def runBarbarians (body : App → String × Comp → App × List ActEvent) :
    App → List (String × Comp) → App × List ActEvent
  | app, [] => (app, [])
  | app, el :: rest =>
    let (app1, evs1) := body app el
    let (app2, evs2) := runBarbarians body app1 rest
    (app2, evs1 ++ evs2)

/-- The controllers loop of `activate`: each controller exposing `activate`
is called with the elevated registry and the application; a throw is NOT
caught, so it aborts the loop (and the whole cascade), reported here as
`some` of the throwing controller's name. -/
def runControllers : List (String × Comp) → List ActEvent × Option String
  | [] => ([], none)
  | (name, c) :: rest =>
    if c.hasActivate then
      if c.throws then ([], some name)
      else
        let (evs, err) := runControllers rest
        (ActEvent.controllerActivate name :: evs, err)
    else runControllers rest

/-- The modules loop of `activate`: each module exposing `activate` is called
with the elevated registry inside a per-module try/catch; a throw is logged
and the loop continues. -/
def runModules : List (String × Comp) → List ActEvent
  | [] => []
  | (name, c) :: rest =>
    if c.hasActivate then
      (if c.throws then [ActEvent.errorLogged name] else [ActEvent.moduleActivate name]) ++
        runModules rest
    else runModules rest

/-- `Application.prototype.activate`: the elevated registry's own `activate`,
then the controllers (uncaught failures abort everything after them), then
the modules, then the plugins, then the widgets (each barbarian loop
enumerating a snapshot of its Container taken when the loop starts), and
finally `this.__activated = true`.  The result carries the final state, the
event trace, and `some` name when an uncaught controller exception
propagated to the caller. -/
def App.activate (app : App) : App × List ActEvent × Option String :=
  match runControllers app.controllers.container with
  | (evs1, some e) => (app, ActEvent.beehiveActivate :: evs1, some e)
  | (evs1, none) =>
    let evs2 := runModules app.modules.container
    let (app1, evs3) := runBarbarians pluginBody app app.plugins.container
    let (app2, evs4) := runBarbarians widgetBody app1 app1.widgets.container
    ({ app2 with activated := true },
     ActEvent.beehiveActivate :: (evs1 ++ evs2 ++ evs3 ++ evs4 ++ [ActEvent.flagSet]), none)

/-- `isActivated()`: `this.__activated || false`. -/
def App.isActivated (app : App) : Bool :=
  app.activated

/-- JavaScript `String.prototype.split` with a single-character separator,
over the character list, with an accumulator for the current fragment. -/
def splitCharsAux (c : Char) : List Char → List Char → List (List Char)
  | [], acc => [acc.reverse]
  | x :: xs, acc =>
    if x == c then acc.reverse :: splitCharsAux c xs []
    else splitCharsAux c xs (x :: acc)

/-- JavaScript `s.split(c)` for a single-character separator. -/
def jsSplit (s : String) (c : Char) : List String :=
  (splitCharsAux c s.toList []).map String.mk

/-- `getPluginOrWidgetName(psk)`: the qualified name recorded for the token,
guarded by JS truthiness of the stored value. -/
def App.getPluginOrWidgetName (app : App) (psk : String) : Option String :=
  match jsLookup app.barbarianRegistry psk with
  | some k => if k == "" then none else some k
  | none => none

/-- `getPluginOrWidgetByPubSubKey(psk)`: `undefined` when the registry has no
entry; otherwise split the qualified name on `':'` and look `key[1]` up in
the widgets Container first, then the plugins Container (a `key[1]` of JS
`undefined`, arising only from an unqualified entry, coerces to the property
name `"undefined"`); when neither holds the name, throw. -/
def App.getPluginOrWidgetByPubSubKey (app : App) (psk : String) :
    Except String (Option Comp) :=
  match app.getPluginOrWidgetName psk with
  | none => .ok none
  | some k =>
    let key := jsSplit k ':'
    let n := key.getD 1 "undefined"
    if app.widgets.has n then .ok (app.widgets.get n)
    else if app.plugins.has n then .ok (app.plugins.get n)
    else .error ("Cant find barbarian with ID: " ++ psk)

/-! ## Event classifiers and concrete scenarios used in the statements -/

/-- An event that is a module/plugin/widget activation call. -/
def ActEvent.isComponentActivation : ActEvent → Bool
  | .moduleActivate _ => true
  | .pluginActivate _ _ => true
  | .widgetActivate _ _ => true
  | _ => false

/-- An event of the controllers tier. -/
def ActEvent.isCtrlTier : ActEvent → Bool
  | .controllerActivate _ => true
  | _ => false

/-- An event of the modules tier. -/
def ActEvent.isModTier : ActEvent → Bool
  | .moduleActivate _ => true
  | _ => false

/-- An event the plugins loop can emit. -/
def ActEvent.isPluginTier : ActEvent → Bool
  | .getHardened _ => true
  | .pluginActivate _ _ => true
  | .registerToken _ _ => true
  | .childAdded cat _ => cat == "plugin"
  | .errorLogged _ => true
  | _ => false

/-- An event the widgets loop can emit. -/
def ActEvent.isWidgetTier : ActEvent → Bool
  | .getHardened _ => true
  | .widgetActivate _ _ => true
  | .registerToken _ _ => true
  | .childAdded cat _ => cat == "widget"
  | .errorLogged _ => true
  | _ => false

/-- The Hardened-Registry-View number of a `getHardened` event. -/
def ActEvent.hardenedId : ActEvent → Option Nat
  | .getHardened i => some i
  | _ => none

/-- A concrete two-group manifest: `core.modules = {A: 'idA'}` and
`plugins = {P: 'idP'}`. -/
def cfgTwoGroups : Config :=
  ⟨some ⟨none, some [(.str "A", .str "idA")], none, none⟩,
    some [(.str "P", .str "idP")], none⟩

/-- Outcomes for `cfgTwoGroups` where the modules group resolves and the
plugins group fails (unresolvable identifier or timeout). -/
def outcomesPluginsFail : Outcomes :=
  fun s => if s == "modules" then some [.obj [] false] else none

/-- Outcomes for `cfgTwoGroups` where the modules group resolves to `v` and
the plugins group resolves to a plain object. -/
def outcomesBoth (v : JSVal) : Outcomes :=
  fun s => if s == "modules" then some [v] else some [.obj [] false]

/-- A concrete manifest whose first group (`core.controllers`) is valid and
whose second group (`core.modules`) has a non-string identifier. -/
def cfgInvalidLater : Config :=
  ⟨some ⟨some [(.str "A", .str "a")], some [(.str "B", .num 1)], none, none⟩,
    none, none⟩

/-- A child component instance (passive). -/
def childComp : Comp := .mk 3 false false "tc" none

/-- A plugin whose `activate` returns one child with collection key `x`. -/
def spawningPlugin : Comp := .mk 1 true false "tp" (some [("x", none, "tc", childComp)])

/-- A passive component occupying the derived name `P-x`. -/
def occupyingComp : Comp := .mk 2 false false "tq" none

/-- An application where plugin `P` spawns a child whose derived name `P-x`
is already registered in the plugins Container. -/
def appCollision : App :=
  ⟨.empty, .empty, ⟨[("P", spawningPlugin), ("P-x", occupyingComp)]⟩, .empty, [], false, 0⟩

/-- An application whose widgets Container already holds the derived name
`P-x`. -/
def appWidgetOccupied : App :=
  ⟨.empty, .empty, .empty, ⟨[("P-x", occupyingComp)]⟩, [], false, 0⟩

/-- A plugin instance registered under the bare name `N`. -/
def pluginN : Comp := .mk 1 false false "ta" none

/-- A widget instance registered under the same bare name `N`. -/
def widgetN : Comp := .mk 2 false false "tb" none

/-- An application whose barbarian registry maps token `t` to `plugin:N`
while both Containers hold the bare name `N`. -/
def appShadowed : App :=
  ⟨.empty, .empty, ⟨[("N", pluginN)]⟩, ⟨[("N", widgetN)]⟩, [("t", "plugin:N")], false, 0⟩

/-- A controller whose `activate` throws. -/
def throwingController : Comp := .mk 10 true true "t10" none

/-- A module whose `activate` throws. -/
def throwingModule : Comp := .mk 11 true true "t11" none

/-- A component whose `activate` succeeds and returns nothing. -/
def plainActive (i : Nat) (tok : String) : Comp := .mk i true false tok none

/-- A component with no `activate` property. -/
def passiveComp (i : Nat) : Comp := .mk i false false "" none

/-- An application with a throwing controller followed by healthy tiers. -/
def appCtrlThrows : App :=
  ⟨⟨[("C", throwingController)]⟩, ⟨[("M", plainActive 20 "t20")]⟩,
    ⟨[("P", plainActive 21 "t21")]⟩, ⟨[("W", plainActive 22 "t22")]⟩, [], false, 0⟩

/-- An application with a healthy controller, a throwing module followed by a
healthy one, and healthy barbarians. -/
def appModuleThrows : App :=
  ⟨⟨[("C", plainActive 30 "t30")]⟩, ⟨[("B", throwingModule), ("M", plainActive 31 "t31")]⟩,
    ⟨[("P", plainActive 32 "t32")]⟩, ⟨[("W", plainActive 33 "t33")]⟩, [], false, 0⟩

/-- An application where every component activates successfully. -/
def appAllGood : App :=
  ⟨⟨[("C", plainActive 40 "t40")]⟩, ⟨[("M", plainActive 41 "t41")]⟩,
    ⟨[("P", plainActive 42 "t42")]⟩, ⟨[("W", plainActive 43 "t43")]⟩, [], false, 0⟩

/-- An application whose only plugin and only widget are passive (no
`activate` property). -/
def appPassiveBarbarians : App :=
  ⟨⟨[("C", plainActive 50 "t50")]⟩, .empty,
    ⟨[("P", passiveComp 51)]⟩, ⟨[("W", passiveComp 52)]⟩, [], false, 0⟩

/-! ## Theorems -/

/-- Claim C1 (amended): when every present group validates but some
dispatched group's resolution fails (unresolvable identifier or timeout),
`loadModules` yields a rejected aggregate outcome and registers nothing at
all during that call — the Containers are exactly as before the call, so in
particular the successfully resolved sibling group's symbolic names are not
registered by it. -/
theorem loadModules_group_failure_rejects_unregistered
    (st : LoadState) (config : Config) (o : Outcomes)
    (hok : (dispatchLoop (presentSections config)).2 = true)
    (g : String × Prescription)
    (hg : g ∈ (dispatchLoop (presentSections config)).1)
    (hgo : o g.1 = none) :
    loadModules st config o =
      .rejected ((dispatchLoop (presentSections config)).1.map (fun p => p.1)) st [] := by
  have hany : (dispatchLoop (presentSections config)).1.any (fun p => (o p.1).isNone) = true :=
    List.any_eq_true.mpr ⟨g, hg, by simp [hgo]⟩
  rcases hd : dispatchLoop (presentSections config) with ⟨disp, ok⟩
  rw [hd] at hok hany
  simp only at hok hany
  unfold loadModules
  rw [hd]
  simp [hok, hany]

/-- Witness for C1's amended theorem at the concrete two-group manifest. -/
theorem loadModules_group_failure_rejects_unregistered_witness :
    loadModules LoadState.init cfgTwoGroups outcomesPluginsFail =
      .rejected ["modules", "plugins"] LoadState.init [] :=
  loadModules_group_failure_rejects_unregistered LoadState.init cfgTwoGroups
    outcomesPluginsFail rfl ("plugins", [(.str "P", .str "idP")]) (.tail _ (.head _)) rfl

/-- Claim C1 counterexample: in the two-group manifest where the modules
group resolved (name `A`) and the plugins group failed, the aggregate
outcome is rejected, but — contrary to the claim — the resolved sibling
group's name `A` is not registered in its Container and `getModule "A"`
yields `undefined`. -/
theorem loadModules_sibling_not_retrievable_cex :
    (match loadModules LoadState.init cfgTwoGroups outcomesPluginsFail with
     | .rejected _ st' _ => st'.getModule "A" = none ∧ st'.getPlugin "P" = none
     | _ => False) :=
  ⟨rfl, rfl⟩

/-- A run of valid groups followed by an invalid one: the dispatch walk
dispatches exactly the valid groups before it and then throws. -/
theorem dispatchLoop_good_then_bad
    (good : List (String × Prescription)) (bad : String × Prescription)
    (rest : List (String × Prescription))
    (hgood : ∀ g ∈ good, checkPrescription g.2 = true)
    (hbad : checkPrescription bad.2 = false) :
    dispatchLoop (good ++ bad :: rest) = (good, false) := by
  induction good with
  | nil =>
    rcases bad with ⟨bn, bp⟩
    simp only [List.nil_append]
    simp [dispatchLoop, hbad]
  | cons a t ih =>
    rcases a with ⟨an, ap⟩
    have ha := hgood (an, ap) (List.mem_cons_self _ _)
    have ht : ∀ g ∈ t, checkPrescription g.2 = true :=
      fun g hg => hgood g (List.mem_cons_of_mem _ hg)
    simp only [List.cons_append]
    simp [dispatchLoop, ha, ih ht]

/-- Claim C5 (amended): when a group entry's name or identifier is not a
string, the load call fails synchronously with a thrown validation error,
and no asynchronous resolution work is dispatched for the invalid group or
for any group after it in the fixed iteration order — but every valid group
appearing earlier in that order has already had its resolution dispatched
before the throw. -/
theorem loadModules_validation_throw_after_earlier_dispatch
    (st : LoadState) (config : Config) (o : Outcomes)
    (good : List (String × Prescription)) (bad : String × Prescription)
    (rest : List (String × Prescription))
    (hsections : presentSections config = good ++ bad :: rest)
    (hgood : ∀ g ∈ good, checkPrescription g.2 = true)
    (hbad : checkPrescription bad.2 = false) :
    loadModules st config o = .thrown (good.map (fun p => p.1)) := by
  unfold loadModules
  rw [hsections, dispatchLoop_good_then_bad good bad rest hgood hbad]
  simp

/-- Witness for C5's amended theorem at the concrete manifest with a valid
`controllers` group and an invalid `modules` group. -/
theorem loadModules_validation_throw_after_earlier_dispatch_witness :
    loadModules LoadState.init cfgInvalidLater (fun _ => none) = .thrown ["controllers"] :=
  loadModules_validation_throw_after_earlier_dispatch LoadState.init cfgInvalidLater
    (fun _ => none)
    [("controllers", [(.str "A", .str "a")])] ("modules", [(.str "B", .num 1)]) []
    rfl (by intro g hg; simp at hg; subst hg; rfl) rfl

/-- Claim C5 counterexample: with a valid `controllers` group followed by an
invalid `modules` group, the call throws synchronously, but the valid
earlier group has already been dispatched — the dispatched list is
`["controllers"]`, not empty as the claim requires. -/
theorem loadModules_dispatch_before_throw_cex :
    loadModules LoadState.init cfgInvalidLater (fun _ => none) = .thrown ["controllers"] ∧
      ["controllers"] ≠ ([] : List String) :=
  ⟨rfl, by decide⟩

/-- Looking up a key in the overwrite branch of `jsAssign` finds the new
value. -/
theorem jsLookup_map_overwrite {α : Type} (t : List (String × α)) (k : String) (v : α)
    (h : t.any (fun p => p.1 == k) = true) :
    jsLookup (t.map (fun p => if p.1 == k then (k, v) else p)) k = some v := by
  induction t with
  | nil => simp at h
  | cons a t ih =>
    by_cases ha : (a.1 == k) = true
    · simp only [List.map_cons, if_pos ha]
      unfold jsLookup
      simp [List.find?_cons]
    · simp only [List.any_cons, Bool.or_eq_true] at h
      have ht := h.resolve_left ha
      have ha' : (a.1 == k) = false := by simpa using ha
      simp only [List.map_cons, if_neg ha]
      unfold jsLookup at ih ⊢
      simp only [List.find?_cons, ha']
      exact ih ht

/-- Looking up a key appended by the fresh branch of `jsAssign` finds it. -/
theorem jsLookup_append_new {α : Type} (t : List (String × α)) (k : String) (v : α)
    (h : t.any (fun p => p.1 == k) = false) :
    jsLookup (t ++ [(k, v)]) k = some v := by
  induction t with
  | nil => simp [jsLookup, List.find?]
  | cons a t ih =>
    rw [List.any_cons, Bool.or_eq_false_iff] at h
    rw [List.cons_append]
    unfold jsLookup at ih ⊢
    simp only [List.find?_cons, h.1]
    exact ih h.2

/-- Reading back a just-assigned property yields the assigned value. -/
theorem jsLookup_jsAssign_self {α : Type} (l : List (String × α)) (k : String) (v : α) :
    jsLookup (jsAssign l k v) k = some v := by
  unfold jsAssign
  by_cases h : l.any (fun p => p.1 == k) = true
  · rw [if_pos h]
    exact jsLookup_map_overwrite l k v h
  · rw [if_neg h]
    exact jsLookup_append_new l k v (Bool.not_eq_true _ ▸ h)

/-- Reading back a just-deleted property yields `undefined`. -/
theorem jsLookup_jsDelete_self {α : Type} (l : List (String × α)) (k : String) :
    jsLookup (jsDelete l k) k = none := by
  unfold jsLookup jsDelete
  rw [Option.map_eq_none', List.find?_eq_none]
  intro x hx
  have hp := List.of_mem_filter hx
  simp only [bne_iff_ne, ne_eq] at hp
  simp [hp]

/-- `jsAssign` keeps the key list unchanged when overwriting, and appends
the new key when inserting. -/
theorem keys_jsAssign {α : Type} (l : List (String × α)) (k : String) (v : α) :
    (jsAssign l k v).map Prod.fst =
      if l.any (fun p => p.1 == k) then l.map Prod.fst else l.map Prod.fst ++ [k] := by
  unfold jsAssign
  by_cases h : l.any (fun p => p.1 == k) = true
  · simp only [h, if_true, List.map_map]
    apply List.map_congr_left
    intro p _
    by_cases hp1 : (p.1 == k) = true
    · have hk : p.1 = k := by simpa using hp1
      simp [Function.comp, hp1, hk]
    · simp [Function.comp, hp1]
  · simp [h]

/-- `Container.add` preserves uniqueness of registered names. -/
theorem Container.keys_nodup_add {α : Type} (c : Container α) (k : String) (v : α)
    (h : c.keys.Nodup) : (c.add k v).keys.Nodup := by
  unfold Container.keys Container.add at *
  rw [keys_jsAssign]
  by_cases hc : c.container.any (fun p => p.1 == k) = true
  · simpa [hc] using h
  · have hk : k ∉ c.container.map Prod.fst := by
      intro hmem
      rcases List.mem_map.mp hmem with ⟨p, hp, hfst⟩
      exact hc (List.any_eq_true.mpr ⟨p, hp, by simp [hfst]⟩)
    have hc' : (c.container.any fun p => p.1 == k) = false := Bool.eq_false_iff.mpr hc
    simp only [hc', Bool.false_eq_true, if_false]
    rw [List.nodup_append]
    exact ⟨h, List.nodup_singleton k, by simpa using hk⟩

/-- `Container.remove` preserves uniqueness of registered names. -/
theorem Container.keys_nodup_remove {α : Type} (c : Container α) (k : String)
    (h : c.keys.Nodup) : (c.remove k).keys.Nodup := by
  unfold Container.keys Container.remove jsDelete at *
  exact h.sublist ((List.filter_sublist _).map Prod.fst)

/-- Objects are truthy. -/
theorem JSVal.truthy_obj (fs : List (String × JSVal)) (p : Bool) :
    (JSVal.obj fs p).truthy = true := rfl

/-- The `prototype` truthiness of an object is its recorded flag. -/
theorem JSVal.protoTruthy_obj (fs : List (String × JSVal)) (p : Bool) :
    (JSVal.obj fs p).protoTruthy = p := rfl

/-- Own-property test on an object checks its field list. -/
theorem JSVal.hasOwn_obj (fs : List (String × JSVal)) (p : Bool) (key : String) :
    (JSVal.obj fs p).hasOwn key = fs.any (fun q => q.1 == key) := rfl

/-- Constructed instances are truthy. -/
theorem JSVal.truthy_instOf (v : JSVal) : (JSVal.instOf v).truthy = true := rfl

/-- Claim C8: names in a Container are unique at any instant (`add` and
`remove` preserve key uniqueness), and re-registering an existing name
during a load first removes the old entry — logging a warning — and then
inserts the new one, so after two loads of the same name `A` with different
resolved values in two separate calls, `getModule "A"` returns the second
value, last-write-wins with no merge. -/
theorem container_names_unique_last_write_wins :
    (∀ (c : Container JSVal) (name : String) (obj : JSVal),
        c.keys.Nodup → ((c.add name obj).keys.Nodup ∧ (c.remove name).keys.Nodup)) ∧
    (∀ v1 v2 : JSVal, v1.truthy = true → v2.truthy = true →
      match loadModules LoadState.init cfgTwoGroups (outcomesBoth v1) with
      | .resolved _ st1 _ =>
          st1.getModule "A" = some v1 ∧
          (match loadModules st1 cfgTwoGroups (outcomesBoth v2) with
           | .resolved _ st2 log2 =>
               st2.getModule "A" = some v2 ∧ LoadEvent.warnExisting "modules" "A" ∈ log2
           | _ => False)
      | _ => False) := by
  constructor
  · intro c name obj h
    exact ⟨Container.keys_nodup_add c name obj h, Container.keys_nodup_remove c name h⟩
  · intro v1 v2 h1 h2
    simp [loadModules, presentSections, cfgTwoGroups, optSection, dispatchLoop,
      checkPrescription, JSVal.isStr, outcomesBoth, registerAll, registerLoadedModules,
      knownSections, buildRet, prescriptionNames, List.enum, List.enumFrom, jsAssign,
      registerLoop, LoadState.sectionHas, LoadState.init, Container.empty, Container.has,
      sectionCreateInstance, createInstance, JSVal.truthy_obj, JSVal.protoTruthy_obj,
      JSVal.hasOwn_obj, LoadState.sectionAdd, LoadState.sectionRemove, Container.add,
      Container.remove, jsDelete, LoadState.getModule, Container.get, jsLookup,
      List.find?, h1, h2]

/-- Witness for C8 at a concrete Container and two concrete loads. -/
theorem container_names_unique_last_write_wins_witness :
    ((⟨[("A", JSVal.num 1)]⟩ : Container JSVal).add "B" (.num 2)).keys.Nodup ∧
    ((⟨[("A", JSVal.num 1)]⟩ : Container JSVal).remove "A").keys.Nodup ∧
    (match loadModules LoadState.init cfgTwoGroups (outcomesBoth (.obj [("u", .num 1)] false)) with
     | .resolved _ st1 _ =>
         st1.getModule "A" = some (.obj [("u", .num 1)] false) ∧
         (match loadModules st1 cfgTwoGroups (outcomesBoth (.obj [("w", .num 2)] false)) with
          | .resolved _ st2 log2 =>
              st2.getModule "A" = some (.obj [("w", .num 2)] false) ∧
                LoadEvent.warnExisting "modules" "A" ∈ log2
          | _ => False)
     | _ => False) :=
  ⟨(container_names_unique_last_write_wins.1 ⟨[("A", JSVal.num 1)]⟩ "B" (.num 2) (by decide)).1,
   (container_names_unique_last_write_wins.1 ⟨[("A", JSVal.num 1)]⟩ "A" (.num 2) (by decide)).2,
   container_names_unique_last_write_wins.2 (.obj [("u", .num 1)] false)
     (.obj [("w", .num 2)] false) rfl rfl⟩

/-- Getting a just-added name from a Container yields the added instance. -/
theorem Container.get_add_self {α : Type} (c : Container α) (k : String) (v : α) :
    (c.add k v).get k = some v :=
  jsLookup_jsAssign_self c.container k v

/-- Getting a just-removed name from a Container yields `undefined`. -/
theorem Container.get_remove_self {α : Type} (c : Container α) (k : String) :
    (c.remove k).get k = none :=
  jsLookup_jsDelete_self c.container k

/-- An absent name reads as `undefined`. -/
theorem Container.get_eq_none_of_has_false {α : Type} (c : Container α) (k : String)
    (h : c.has k = false) : c.get k = none := by
  unfold Container.has at h
  unfold Container.get jsLookup
  rw [Option.map_eq_none', List.find?_eq_none]
  intro x hx hpx
  have : c.container.any (fun p => p.1 == k) = true := List.any_eq_true.mpr ⟨x, hx, hpx⟩
  exact absurd this (by simp [h])

/-- Section-level read-after-add. -/
theorem LoadState.sectionGet_add_self (st : LoadState) (s key : String) (v : JSVal) :
    (st.sectionAdd s key v).sectionGet s key = some v := by
  unfold LoadState.sectionAdd LoadState.sectionGet
  by_cases h1 : (s == "controllers") = true <;>
    by_cases h2 : (s == "services") = true <;>
      by_cases h3 : (s == "objects") = true <;>
        by_cases h4 : (s == "modules") = true <;>
          by_cases h5 : (s == "widgets") = true <;>
            simp [h1, h2, h3, h4, h5, Container.get_add_self]

/-- Section-level read-after-remove. -/
theorem LoadState.sectionGet_remove_self (st : LoadState) (s key : String) :
    (st.sectionRemove s key).sectionGet s key = none := by
  unfold LoadState.sectionRemove LoadState.sectionGet
  by_cases h1 : (s == "controllers") = true <;>
    by_cases h2 : (s == "services") = true <;>
      by_cases h3 : (s == "objects") = true <;>
        by_cases h4 : (s == "modules") = true <;>
          by_cases h5 : (s == "widgets") = true <;>
            simp [h1, h2, h3, h4, h5, Container.get_remove_self]

/-- Section-level read of an absent name. -/
theorem LoadState.sectionGet_eq_none_of_has_false (st : LoadState) (s key : String)
    (h : st.sectionHas s key = false) : st.sectionGet s key = none := by
  unfold LoadState.sectionHas at h
  unfold LoadState.sectionGet
  by_cases h1 : (s == "controllers") = true <;>
    by_cases h2 : (s == "services") = true <;>
      by_cases h3 : (s == "objects") = true <;>
        by_cases h4 : (s == "modules") = true <;>
          by_cases h5 : (s == "widgets") = true <;>
            simp [h1, h2, h3, h4, h5] at h ⊢ <;>
              exact Container.get_eq_none_of_has_false _ _ h

/-- Evaluating the registration loop on one entry whose instance is falsy:
the old entry (if any) has been removed, nothing is added, and the skip is
logged. -/
theorem registerLoop_single_skip (s : String) (st : LoadState) (key : String) (v : JSVal)
    (h : (sectionCreateInstance s key v).truthy = false) :
    registerLoop s st [(key, v)] =
      (if st.sectionHas s key then st.sectionRemove s key else st,
       (if st.sectionHas s key then [LoadEvent.warnExisting s key] else []) ++
         (if s != "modules" && !v.truthy then [LoadEvent.warnEmptyModule key] else []) ++
           [LoadEvent.warnNullInstance key]) := by
  simp [registerLoop, h]

/-- Evaluating the registration loop on one entry whose instance is truthy:
the old entry (if any) has been removed and the new instance added. -/
theorem registerLoop_single_add (s : String) (st : LoadState) (key : String) (v : JSVal)
    (h : (sectionCreateInstance s key v).truthy = true) :
    registerLoop s st [(key, v)] =
      ((if st.sectionHas s key then st.sectionRemove s key else st).sectionAdd s key
         (sectionCreateInstance s key v),
       (if st.sectionHas s key then [LoadEvent.warnExisting s key] else []) ++
         (if s != "modules" && !v.truthy then [LoadEvent.warnEmptyModule key] else [])) := by
  simp [registerLoop, h]

/-- The per-value outcome of registering one component in any section other
than `modules`: construct when constructor-shaped, unwrap a property named
like the component, store verbatim otherwise, and skip falsy instances with
a warning. -/
theorem registerSectionPolicy (st : LoadState) (s key : String) (v : JSVal)
    (hknown : knownSections.contains s = true) (hnm : (s == "modules") = false) :
    ∃ st' evs, registerLoadedModules st s [(key, v)] = .ok (st', evs) ∧
      (v.protoTruthy = true → v.truthy = true →
         st'.sectionGet s key = some (.instOf v)) ∧
      (v.protoTruthy = false → v.hasOwn key = true → (v.getProp key).truthy = true →
         v.truthy = true → st'.sectionGet s key = some (v.getProp key)) ∧
      (v.protoTruthy = false → v.hasOwn key = false → v.truthy = true →
         st'.sectionGet s key = some v) ∧
      ((createInstance key v).truthy = false →
         st'.sectionGet s key = none ∧ LoadEvent.warnNullInstance key ∈ evs) := by
  have hreg : registerLoadedModules st s [(key, v)] = .ok (registerLoop s st [(key, v)]) := by
    unfold registerLoadedModules
    rw [if_pos hknown]
  have hsci : sectionCreateInstance s key v = createInstance key v := by
    unfold sectionCreateInstance
    simp [hnm]
  by_cases hci : (createInstance key v).truthy = true
  · have hone := registerLoop_single_add s st key v (by rw [hsci]; exact hci)
    refine ⟨_, _, by rw [hreg, hone], ?_, ?_, ?_, ?_⟩
    · intro hp ht
      rw [LoadState.sectionGet_add_self]
      simp [hsci, createInstance, ht, hp]
    · intro hp hown hgp ht
      rw [LoadState.sectionGet_add_self]
      simp [hsci, createInstance, ht, hp, hown]
    · intro hp hown ht
      rw [LoadState.sectionGet_add_self]
      simp [hsci, createInstance, ht, hp, hown]
    · intro hfalse
      rw [hfalse] at hci
      exact Bool.noConfusion hci
  · have hci' : (createInstance key v).truthy = false := Bool.eq_false_iff.mpr hci
    have hone := registerLoop_single_skip s st key v (by rw [hsci]; exact hci')
    refine ⟨_, _, by rw [hreg, hone], ?_, ?_, ?_, ?_⟩
    · intro hp ht
      simp [createInstance, ht, hp, JSVal.truthy_instOf] at hci'
    · intro hp hown hgp ht
      simp [createInstance, ht, hp, hown, hgp] at hci'
    · intro hp hown ht
      simp [createInstance, ht, hp, hown] at hci'
    · intro _
      constructor
      · by_cases hhas : st.sectionHas s key = true
        · simp only [hhas, if_true]
          exact LoadState.sectionGet_remove_self st s key
        · have hhas' : st.sectionHas s key = false := Bool.eq_false_iff.mpr hhas
          simp only [hhas', Bool.false_eq_true, if_false]
          exact LoadState.sectionGet_eq_none_of_has_false st s key hhas'
      · simp

/-- The per-value outcome of registering one entry in the `modules` section:
the resolved value is stored verbatim, and a falsy value is skipped with a
warning. -/
theorem registerModulesVerbatim (st0 : LoadState) (key : String) (w : JSVal) :
    ∃ st' evs, registerLoadedModules st0 "modules" [(key, w)] = .ok (st', evs) ∧
      (w.truthy = true → st'.sectionGet "modules" key = some w) ∧
      (w.truthy = false → st'.sectionGet "modules" key = none ∧
         LoadEvent.warnNullInstance key ∈ evs) := by
  have hreg : registerLoadedModules st0 "modules" [(key, w)] =
      .ok (registerLoop "modules" st0 [(key, w)]) := by
    unfold registerLoadedModules
    simp [knownSections]
  have hsci : sectionCreateInstance "modules" key w = w := by
    simp [sectionCreateInstance]
  by_cases hw : w.truthy = true
  · have hone := registerLoop_single_add "modules" st0 key w (by rw [hsci]; exact hw)
    refine ⟨_, _, by rw [hreg, hone], ?_, ?_⟩
    · intro _
      rw [LoadState.sectionGet_add_self]
      rw [hsci]
    · intro hfalse
      rw [hfalse] at hw
      exact Bool.noConfusion hw
  · have hw' : w.truthy = false := Bool.eq_false_iff.mpr hw
    have hone := registerLoop_single_skip "modules" st0 key w (by rw [hsci]; exact hw')
    refine ⟨_, _, by rw [hreg, hone], ?_, ?_⟩
    · intro htrue
      rw [htrue] at hw'
      exact Bool.noConfusion hw'
    · intro _
      constructor
      · by_cases hhas : st0.sectionHas "modules" key = true
        · simp only [hhas, if_true]
          exact LoadState.sectionGet_remove_self st0 "modules" key
        · have hhas' : st0.sectionHas "modules" key = false := Bool.eq_false_iff.mpr hhas
          simp only [hhas', Bool.false_eq_true, if_false]
          exact LoadState.sectionGet_eq_none_of_has_false st0 "modules" key hhas'
      · simp

/-- Claim C6: for the groups `controllers`, `services`, `objects`, `plugins`
and `widgets`, a resolved value with a truthy `prototype` is constructed
with no arguments; otherwise a value owning a property keyed by the
component's own symbolic name has that nested property stored; otherwise
the value is stored verbatim.  The `modules` group always stores the value
verbatim.  Whenever the final instance is falsy, registration of that name
is skipped with a warning and the call still succeeds. -/
theorem instance_policy_per_group
    (st : LoadState) (section' key : String) (v : JSVal)
    (hsec : section' ∈ ["controllers", "services", "objects", "plugins", "widgets"]) :
    (∃ st' evs, registerLoadedModules st section' [(key, v)] = .ok (st', evs) ∧
      (v.protoTruthy = true → v.truthy = true →
         st'.sectionGet section' key = some (.instOf v)) ∧
      (v.protoTruthy = false → v.hasOwn key = true → (v.getProp key).truthy = true →
         v.truthy = true → st'.sectionGet section' key = some (v.getProp key)) ∧
      (v.protoTruthy = false → v.hasOwn key = false → v.truthy = true →
         st'.sectionGet section' key = some v) ∧
      ((createInstance key v).truthy = false →
         st'.sectionGet section' key = none ∧ LoadEvent.warnNullInstance key ∈ evs)) ∧
    (∀ (st0 : LoadState) (w : JSVal),
      ∃ st' evs, registerLoadedModules st0 "modules" [(key, w)] = .ok (st', evs) ∧
        (w.truthy = true → st'.sectionGet "modules" key = some w) ∧
        (w.truthy = false → st'.sectionGet "modules" key = none ∧
           LoadEvent.warnNullInstance key ∈ evs)) := by
  constructor
  · have hksec : knownSections.contains section' = true ∧ (section' == "modules") = false := by
      simp only [List.mem_cons, List.not_mem_nil, or_false] at hsec
      rcases hsec with rfl | rfl | rfl | rfl | rfl <;> exact ⟨by decide, by decide⟩
    exact registerSectionPolicy st section' key v hksec.1 hksec.2
  · intro st0 w
    exact registerModulesVerbatim st0 key w

/-- Witness for C6 at the `plugins` section with a concrete resolved value
owning a property named like its component. -/
theorem instance_policy_per_group_witness :
    ("plugins" ∈ ["controllers", "services", "objects", "plugins", "widgets"]) ∧
    ((∃ st' evs, registerLoadedModules LoadState.init "plugins"
        [("K", JSVal.obj [("K", JSVal.num 7)] false)] = .ok (st', evs) ∧
      ((JSVal.obj [("K", JSVal.num 7)] false).protoTruthy = true →
         (JSVal.obj [("K", JSVal.num 7)] false).truthy = true →
         st'.sectionGet "plugins" "K" = some (.instOf (JSVal.obj [("K", JSVal.num 7)] false))) ∧
      ((JSVal.obj [("K", JSVal.num 7)] false).protoTruthy = false →
         (JSVal.obj [("K", JSVal.num 7)] false).hasOwn "K" = true →
         ((JSVal.obj [("K", JSVal.num 7)] false).getProp "K").truthy = true →
         (JSVal.obj [("K", JSVal.num 7)] false).truthy = true →
         st'.sectionGet "plugins" "K" = some ((JSVal.obj [("K", JSVal.num 7)] false).getProp "K")) ∧
      ((JSVal.obj [("K", JSVal.num 7)] false).protoTruthy = false →
         (JSVal.obj [("K", JSVal.num 7)] false).hasOwn "K" = false →
         (JSVal.obj [("K", JSVal.num 7)] false).truthy = true →
         st'.sectionGet "plugins" "K" = some (JSVal.obj [("K", JSVal.num 7)] false)) ∧
      ((createInstance "K" (JSVal.obj [("K", JSVal.num 7)] false)).truthy = false →
         st'.sectionGet "plugins" "K" = none ∧ LoadEvent.warnNullInstance "K" ∈ evs)) ∧
    (∀ (st0 : LoadState) (w : JSVal),
      ∃ st' evs, registerLoadedModules st0 "modules" [("K", w)] = .ok (st', evs) ∧
        (w.truthy = true → st'.sectionGet "modules" "K" = some w) ∧
        (w.truthy = false → st'.sectionGet "modules" "K" = none ∧
           LoadEvent.warnNullInstance "K" ∈ evs))) :=
  ⟨by decide,
   instance_policy_per_group LoadState.init "plugins" "K"
     (JSVal.obj [("K", JSVal.num 7)] false) (by decide)⟩

/-- A throwing controller makes the controllers loop abort with an uncaught
error, having emitted only controller events. -/
theorem runControllers_err_of_throwing (l : List (String × Comp))
    (h : ∃ p ∈ l, p.2.hasActivate = true ∧ p.2.throws = true) :
    ∃ evs e, runControllers l = (evs, some e) ∧ ∀ ev ∈ evs, ev.isCtrlTier = true := by
  induction l with
  | nil => simp at h
  | cons a rest ih =>
    rcases a with ⟨name, c⟩
    by_cases hha : c.hasActivate = true
    · by_cases hth : c.throws = true
      · exact ⟨[], name, by simp [runControllers, hha, hth], by simp⟩
      · have hth' : c.throws = false := Bool.eq_false_iff.mpr hth
        have hrest : ∃ p ∈ rest, p.2.hasActivate = true ∧ p.2.throws = true := by
          rcases h with ⟨p, hp, hpa⟩
          rcases List.mem_cons.mp hp with rfl | hp'
          · exact absurd hpa.2 hth
          · exact ⟨p, hp', hpa⟩
        rcases ih hrest with ⟨evs, e, heq, hall⟩
        refine ⟨ActEvent.controllerActivate name :: evs, e, ?_, ?_⟩
        · simp [runControllers, hha, hth', heq]
        · intro ev hev
          rcases List.mem_cons.mp hev with rfl | hev'
          · rfl
          · exact hall ev hev'
    · have hha' : c.hasActivate = false := Bool.eq_false_iff.mpr hha
      have hrest : ∃ p ∈ rest, p.2.hasActivate = true ∧ p.2.throws = true := by
        rcases h with ⟨p, hp, hpa⟩
        rcases List.mem_cons.mp hp with rfl | hp'
        · exact absurd hpa.1 hha
        · exact ⟨p, hp', hpa⟩
      rcases ih hrest with ⟨evs, e, heq, hall⟩
      exact ⟨evs, e, by simp [runControllers, hha', heq], hall⟩

/-- When no controller throws, the controllers loop completes with only
controller events and no error. -/
theorem runControllers_none_of_no_throw (l : List (String × Comp))
    (h : ∀ p ∈ l, p.2.hasActivate = true → p.2.throws = false) :
    ∃ evs, runControllers l = (evs, none) ∧ ∀ ev ∈ evs, ev.isCtrlTier = true := by
  induction l with
  | nil => exact ⟨[], rfl, by simp⟩
  | cons a rest ih =>
    rcases a with ⟨name, c⟩
    have hrest : ∀ p ∈ rest, p.2.hasActivate = true → p.2.throws = false :=
      fun p hp => h p (List.mem_cons_of_mem _ hp)
    rcases ih hrest with ⟨evs, heq, hall⟩
    by_cases hha : c.hasActivate = true
    · have hth := h (name, c) (List.mem_cons_self _ _) hha
      refine ⟨ActEvent.controllerActivate name :: evs, ?_, ?_⟩
      · simp [runControllers, hha, hth, heq]
      · intro ev hev
        rcases List.mem_cons.mp hev with rfl | hev'
        · rfl
        · exact hall ev hev'
    · have hha' : c.hasActivate = false := Bool.eq_false_iff.mpr hha
      exact ⟨evs, by simp [runControllers, hha', heq], hall⟩

/-- An uncaught error from the controllers loop comes from a registered
controller that exposes `activate` and throws. -/
theorem runControllers_throwing_of_err (l : List (String × Comp)) (evs : List ActEvent)
    (e : String) (h : runControllers l = (evs, some e)) :
    ∃ p ∈ l, p.2.hasActivate = true ∧ p.2.throws = true := by
  induction l generalizing evs with
  | nil => simp [runControllers] at h
  | cons a rest ih =>
    rcases a with ⟨name, c⟩
    by_cases hha : c.hasActivate = true
    · by_cases hth : c.throws = true
      · exact ⟨(name, c), List.mem_cons_self _ _, hha, hth⟩
      · have hth' : c.throws = false := Bool.eq_false_iff.mpr hth
        rcases hrest : runControllers rest with ⟨evs', err'⟩
        simp [runControllers, hha, hth', hrest] at h
        rcases (ih evs' (by rw [hrest, h.2])) with ⟨p, hp, hpa⟩
        exact ⟨p, List.mem_cons_of_mem _ hp, hpa⟩
    · have hha' : c.hasActivate = false := Bool.eq_false_iff.mpr hha
      rw [show runControllers ((name, c) :: rest) = runControllers rest by
        simp [runControllers, hha']] at h
      rcases ih evs h with ⟨p, hp, hpa⟩
      exact ⟨p, List.mem_cons_of_mem _ hp, hpa⟩

/-- When no module throws, the modules loop emits only module events. -/
theorem runModules_events_of_no_throw (l : List (String × Comp))
    (h : ∀ p ∈ l, p.2.hasActivate = true → p.2.throws = false) :
    ∀ ev ∈ runModules l, ev.isModTier = true := by
  induction l with
  | nil => simp [runModules]
  | cons a rest ih =>
    rcases a with ⟨name, c⟩
    have hrest : ∀ p ∈ rest, p.2.hasActivate = true → p.2.throws = false :=
      fun p hp => h p (List.mem_cons_of_mem _ hp)
    by_cases hha : c.hasActivate = true
    · have hth := h (name, c) (List.mem_cons_self _ _) hha
      intro ev hev
      rw [show runModules ((name, c) :: rest) =
          ActEvent.moduleActivate name :: runModules rest by
        simp [runModules, hha, hth]] at hev
      rcases List.mem_cons.mp hev with rfl | hev'
      · rfl
      · exact ih hrest ev hev'
    · have hha' : c.hasActivate = false := Bool.eq_false_iff.mpr hha
      intro ev hev
      rw [show runModules ((name, c) :: rest) = runModules rest by
        simp [runModules, hha']] at hev
      exact ih hrest ev hev

/-- Every module exposing `activate` leaves its trace in the modules loop:
an activation event when it succeeds, a logged error when it throws — and
the loop continues either way. -/
theorem runModules_mem (l : List (String × Comp)) (p : String × Comp)
    (hp : p ∈ l) (hha : p.2.hasActivate = true) :
    (p.2.throws = false → ActEvent.moduleActivate p.1 ∈ runModules l) ∧
    (p.2.throws = true → ActEvent.errorLogged p.1 ∈ runModules l) := by
  induction l with
  | nil => simp at hp
  | cons a rest ih =>
    rcases List.mem_cons.mp hp with rfl | hp'
    · constructor <;> intro hth <;> simp [runModules, hha, hth]
    · have htail := ih hp'
      have hsup : ∀ ev, ev ∈ runModules rest → ev ∈ runModules (a :: rest) := by
        intro ev hev
        rcases a with ⟨an, ac⟩
        by_cases haa : ac.hasActivate = true
        · by_cases hat : ac.throws = true
          · simp [runModules, haa, hat]
            exact Or.inr hev
          · have hat' : ac.throws = false := Bool.eq_false_iff.mpr hat
            simp [runModules, haa, hat']
            exact Or.inr hev
        · have haa' : ac.hasActivate = false := Bool.eq_false_iff.mpr haa
          simpa [runModules, haa'] using hev
      exact ⟨fun hth => hsup _ (htail.1 hth), fun hth => hsup _ (htail.2 hth)⟩

/-- Child registration never touches the controllers, the modules, the
activation flag or the hardened-view counter. -/
theorem rbc_preserves_core (cat pfx : String)
    (cs : List (String × Option String × String × Comp)) (app : App) :
    (registerBarbarianChildren cat pfx cs app).1.controllers = app.controllers ∧
    (registerBarbarianChildren cat pfx cs app).1.modules = app.modules ∧
    (registerBarbarianChildren cat pfx cs app).1.activated = app.activated ∧
    (registerBarbarianChildren cat pfx cs app).1.hardenedCounter = app.hardenedCounter := by
  induction cs generalizing app with
  | nil => exact ⟨rfl, rfl, rfl, rfl⟩
  | cons ch rest ih =>
    rcases ch with ⟨key, cname, ctok, cobj⟩
    simp only [registerBarbarianChildren]
    by_cases hcat : (cat == "widget") = true
    · simp only [hcat, if_true]
      by_cases hw : app.widgets.has (pfx ++ "-" ++ jsOrName cname key) = true
      · simp [hw]
      · have hw' := Bool.eq_false_iff.mpr hw
        rcases hres : registerBarbarianChildren cat pfx rest
            ⟨app.controllers, app.modules, app.plugins,
              app.widgets.add (pfx ++ "-" ++ jsOrName cname key) cobj,
              jsAssign app.barbarianRegistry ctok
                (cat ++ ":" ++ (pfx ++ "-" ++ jsOrName cname key)),
              app.activated, app.hardenedCounter⟩ with ⟨app3, evs3, err3⟩
        have hih := ih (⟨app.controllers, app.modules, app.plugins,
          app.widgets.add (pfx ++ "-" ++ jsOrName cname key) cobj,
          jsAssign app.barbarianRegistry ctok
            (cat ++ ":" ++ (pfx ++ "-" ++ jsOrName cname key)),
          app.activated, app.hardenedCounter⟩)
        rw [hres] at hih
        simp [hw', Bool.false_eq_true, if_false, hres]
        exact hih
    · have hcat' := Bool.eq_false_iff.mpr hcat
      simp only [hcat', Bool.false_eq_true, if_false]
      by_cases hw : app.plugins.has (pfx ++ "-" ++ jsOrName cname key) = true
      · simp [hw]
      · have hw' := Bool.eq_false_iff.mpr hw
        rcases hres : registerBarbarianChildren cat pfx rest
            ⟨app.controllers, app.modules,
              app.plugins.add (pfx ++ "-" ++ jsOrName cname key) cobj, app.widgets,
              jsAssign app.barbarianRegistry ctok
                (cat ++ ":" ++ (pfx ++ "-" ++ jsOrName cname key)),
              app.activated, app.hardenedCounter⟩ with ⟨app3, evs3, err3⟩
        have hih := ih (⟨app.controllers, app.modules,
          app.plugins.add (pfx ++ "-" ++ jsOrName cname key) cobj, app.widgets,
          jsAssign app.barbarianRegistry ctok
            (cat ++ ":" ++ (pfx ++ "-" ++ jsOrName cname key)),
          app.activated, app.hardenedCounter⟩)
        rw [hres] at hih
        simp [hw', Bool.false_eq_true, if_false, hres]
        exact hih

/-- Child registration emits only token-registration and child-addition
events (for its own category). -/
theorem rbc_events_shape (cat pfx : String)
    (cs : List (String × Option String × String × Comp)) (app : App) :
    ∀ ev ∈ (registerBarbarianChildren cat pfx cs app).2.1,
      (∃ t q, ev = ActEvent.registerToken t q) ∨
        (∃ n, ev = ActEvent.childAdded (if cat == "widget" then "widget" else "plugin") n) := by
  induction cs generalizing app with
  | nil => simp [registerBarbarianChildren]
  | cons ch rest ih =>
    rcases ch with ⟨key, cname, ctok, cobj⟩
    intro ev hev
    simp only [registerBarbarianChildren] at hev
    by_cases hcat : (cat == "widget") = true
    · simp only [hcat, if_true] at hev
      by_cases hw : app.widgets.has (pfx ++ "-" ++ jsOrName cname key) = true
      · simp [hw] at hev
        exact Or.inl ⟨_, _, hev⟩
      · have hw' := Bool.eq_false_iff.mpr hw
        rcases hres : registerBarbarianChildren cat pfx rest
            ⟨app.controllers, app.modules, app.plugins,
              app.widgets.add (pfx ++ "-" ++ jsOrName cname key) cobj,
              jsAssign app.barbarianRegistry ctok
                (cat ++ ":" ++ (pfx ++ "-" ++ jsOrName cname key)),
              app.activated, app.hardenedCounter⟩ with ⟨app3, evs3, err3⟩
        have hcats : cat = "widget" := by simpa using hcat
        simp [hw', Bool.false_eq_true, hres] at hev
        rcases hev with rfl | rfl | hev'
        · exact Or.inl ⟨_, _, rfl⟩
        · exact Or.inr ⟨_, by rw [if_pos hcat]⟩
        · have := ih (⟨app.controllers, app.modules, app.plugins,
            app.widgets.add (pfx ++ "-" ++ jsOrName cname key) cobj,
            jsAssign app.barbarianRegistry ctok
              (cat ++ ":" ++ (pfx ++ "-" ++ jsOrName cname key)),
            app.activated, app.hardenedCounter⟩) ev
          rw [hres] at this
          exact this hev'
    · have hcat' := Bool.eq_false_iff.mpr hcat
      simp only [hcat', Bool.false_eq_true, if_false] at hev
      by_cases hw : app.plugins.has (pfx ++ "-" ++ jsOrName cname key) = true
      · simp [hw] at hev
        exact Or.inl ⟨_, _, hev⟩
      · have hw' := Bool.eq_false_iff.mpr hw
        rcases hres : registerBarbarianChildren cat pfx rest
            ⟨app.controllers, app.modules,
              app.plugins.add (pfx ++ "-" ++ jsOrName cname key) cobj, app.widgets,
              jsAssign app.barbarianRegistry ctok
                (cat ++ ":" ++ (pfx ++ "-" ++ jsOrName cname key)),
              app.activated, app.hardenedCounter⟩ with ⟨app3, evs3, err3⟩
        simp [hw', Bool.false_eq_true, hres] at hev
        rcases hev with rfl | rfl | hev'
        · exact Or.inl ⟨_, _, rfl⟩
        · exact Or.inr ⟨_, by rw [if_neg (by simpa using hcat')]⟩
        · have := ih (⟨app.controllers, app.modules,
            app.plugins.add (pfx ++ "-" ++ jsOrName cname key) cobj, app.widgets,
            jsAssign app.barbarianRegistry ctok
              (cat ++ ":" ++ (pfx ++ "-" ++ jsOrName cname key)),
            app.activated, app.hardenedCounter⟩) ev
          rw [hres] at this
          exact this hev'

/-- Child registration creates no Hardened Registry Views. -/
theorem rbc_no_hardened (cat pfx : String)
    (cs : List (String × Option String × String × Comp)) (app : App) :
    (registerBarbarianChildren cat pfx cs app).2.1.filterMap ActEvent.hardenedId = [] := by
  rw [List.filterMap_eq_nil_iff]
  intro ev hev
  rcases rbc_events_shape cat pfx cs app ev hev with ⟨t, q, rfl⟩ | ⟨n, rfl⟩ <;> rfl

/-- Registering plugin children never touches the widgets Container. -/
theorem rbc_plugin_preserves_widgets (pfx : String)
    (cs : List (String × Option String × String × Comp)) (app : App) :
    (registerBarbarianChildren "plugin" pfx cs app).1.widgets = app.widgets := by
  induction cs generalizing app with
  | nil => rfl
  | cons ch rest ih =>
    rcases ch with ⟨key, cname, ctok, cobj⟩
    simp only [registerBarbarianChildren]
    by_cases hw : app.plugins.has (pfx ++ "-" ++ jsOrName cname key) = true
    · simp [hw]
    · have hw' := Bool.eq_false_iff.mpr hw
      rcases hres : registerBarbarianChildren "plugin" pfx rest
          ⟨app.controllers, app.modules,
            app.plugins.add (pfx ++ "-" ++ jsOrName cname key) cobj, app.widgets,
            jsAssign app.barbarianRegistry ctok
              ("plugin" ++ ":" ++ (pfx ++ "-" ++ jsOrName cname key)),
            app.activated, app.hardenedCounter⟩ with ⟨app3, evs3, err3⟩
      have hih := ih (⟨app.controllers, app.modules,
        app.plugins.add (pfx ++ "-" ++ jsOrName cname key) cobj, app.widgets,
        jsAssign app.barbarianRegistry ctok
          ("plugin" ++ ":" ++ (pfx ++ "-" ++ jsOrName cname key)),
        app.activated, app.hardenedCounter⟩)
      rw [hres] at hih
      simp [hw', Bool.false_eq_true, if_false, hres]
      exact hih

/-- A plugin without an `activate` property is skipped entirely by the
plugins loop: no state change and no events. -/
theorem pluginBody_passive (app : App) (el : String × Comp)
    (h : el.2.hasActivate = false) : pluginBody app el = (app, []) := by
  unfold pluginBody
  simp [h]

/-- A widget without an `activate` property is skipped entirely by the
widgets loop: no state change and no events. -/
theorem widgetBody_passive (app : App) (el : String × Comp)
    (h : el.2.hasActivate = false) : widgetBody app el = (app, []) := by
  unfold widgetBody
  simp [h]

/-- Every event of one plugins-loop step is a plugin-tier event. -/
theorem pluginBody_events_tier (app : App) (el : String × Comp) :
    ∀ ev ∈ (pluginBody app el).2, ev.isPluginTier = true := by
  unfold pluginBody
  by_cases hha : el.2.hasActivate = true
  · simp only [hha, if_true]
    by_cases hth : el.2.throws = true
    · simp [hth, ActEvent.isPluginTier]
    · have hth' := Bool.eq_false_iff.mpr hth
      simp only [hth', Bool.false_eq_true, if_false]
      rcases hch : el.2.children with _ | cs
      · simp [ActEvent.isPluginTier]
      · rcases hres : registerBarbarianChildren "plugin" el.1 cs
            ⟨{ app with hardenedCounter := app.hardenedCounter + 1 }.controllers,
              { app with hardenedCounter := app.hardenedCounter + 1 }.modules,
              { app with hardenedCounter := app.hardenedCounter + 1 }.plugins,
              { app with hardenedCounter := app.hardenedCounter + 1 }.widgets,
              jsAssign app.barbarianRegistry el.2.token ("plugin:" ++ el.1),
              app.activated, app.hardenedCounter + 1⟩ with ⟨app2, evs2, err2⟩
        have hsh := rbc_events_shape "plugin" el.1 cs
          ⟨{ app with hardenedCounter := app.hardenedCounter + 1 }.controllers,
            { app with hardenedCounter := app.hardenedCounter + 1 }.modules,
            { app with hardenedCounter := app.hardenedCounter + 1 }.plugins,
            { app with hardenedCounter := app.hardenedCounter + 1 }.widgets,
            jsAssign app.barbarianRegistry el.2.token ("plugin:" ++ el.1),
            app.activated, app.hardenedCounter + 1⟩
        rw [hres] at hsh
        intro ev hev
        rcases err2 with _ | e
        · simp [hres] at hev
          rcases hev with rfl | rfl | rfl | hev'
          · rfl
          · rfl
          · rfl
          · rcases hsh ev hev' with ⟨t, q, rfl⟩ | ⟨n, rfl⟩ <;> rfl
        · simp [hres] at hev
          rcases hev with rfl | rfl | rfl | hev' | rfl
          · rfl
          · rfl
          · rfl
          · rcases hsh ev hev' with ⟨t, q, rfl⟩ | ⟨n, rfl⟩ <;> rfl
          · rfl
  · have hha' := Bool.eq_false_iff.mpr hha
    simp [hha', Bool.false_eq_true, if_false]

/-- Every event of one widgets-loop step is a widget-tier event. -/
theorem widgetBody_events_tier (app : App) (el : String × Comp) :
    ∀ ev ∈ (widgetBody app el).2, ev.isWidgetTier = true := by
  unfold widgetBody
  by_cases hha : el.2.hasActivate = true
  · simp only [hha, if_true]
    by_cases hth : el.2.throws = true
    · simp [hth, ActEvent.isWidgetTier]
    · have hth' := Bool.eq_false_iff.mpr hth
      simp only [hth', Bool.false_eq_true, if_false]
      rcases hch : el.2.children with _ | cs
      · simp [ActEvent.isWidgetTier]
      · rcases hres : registerBarbarianChildren "widget" el.1 cs
            ⟨{ app with hardenedCounter := app.hardenedCounter + 1 }.controllers,
              { app with hardenedCounter := app.hardenedCounter + 1 }.modules,
              { app with hardenedCounter := app.hardenedCounter + 1 }.plugins,
              { app with hardenedCounter := app.hardenedCounter + 1 }.widgets,
              jsAssign app.barbarianRegistry el.2.token ("widget:" ++ el.1),
              app.activated, app.hardenedCounter + 1⟩ with ⟨app2, evs2, err2⟩
        have hsh := rbc_events_shape "widget" el.1 cs
          ⟨{ app with hardenedCounter := app.hardenedCounter + 1 }.controllers,
            { app with hardenedCounter := app.hardenedCounter + 1 }.modules,
            { app with hardenedCounter := app.hardenedCounter + 1 }.plugins,
            { app with hardenedCounter := app.hardenedCounter + 1 }.widgets,
            jsAssign app.barbarianRegistry el.2.token ("widget:" ++ el.1),
            app.activated, app.hardenedCounter + 1⟩
        rw [hres] at hsh
        intro ev hev
        rcases err2 with _ | e
        · simp [hres] at hev
          rcases hev with rfl | rfl | rfl | hev'
          · rfl
          · rfl
          · rfl
          · rcases hsh ev hev' with ⟨t, q, rfl⟩ | ⟨n, rfl⟩ <;> rfl
        · simp [hres] at hev
          rcases hev with rfl | rfl | rfl | hev' | rfl
          · rfl
          · rfl
          · rfl
          · rcases hsh ev hev' with ⟨t, q, rfl⟩ | ⟨n, rfl⟩ <;> rfl
          · rfl
  · have hha' := Bool.eq_false_iff.mpr hha
    simp [hha', Bool.false_eq_true, if_false]

/-- One plugins-loop step creates exactly one fresh Hardened Registry View
when the plugin exposes `activate` — numbered by the current counter — and
none otherwise. -/
theorem pluginBody_counter_ids (app : App) (el : String × Comp) :
    (pluginBody app el).1.hardenedCounter =
        app.hardenedCounter + (if el.2.hasActivate = true then 1 else 0) ∧
    (pluginBody app el).2.filterMap ActEvent.hardenedId =
        (if el.2.hasActivate = true then [app.hardenedCounter] else []) := by
  unfold pluginBody
  by_cases hha : el.2.hasActivate = true
  · simp only [hha, if_true]
    by_cases hth : el.2.throws = true
    · simp [hth, ActEvent.hardenedId]
    · have hth' := Bool.eq_false_iff.mpr hth
      simp only [hth', Bool.false_eq_true, if_false]
      rcases hch : el.2.children with _ | cs
      · simp [ActEvent.hardenedId]
      · rcases hres : registerBarbarianChildren "plugin" el.1 cs
            ⟨{ app with hardenedCounter := app.hardenedCounter + 1 }.controllers,
              { app with hardenedCounter := app.hardenedCounter + 1 }.modules,
              { app with hardenedCounter := app.hardenedCounter + 1 }.plugins,
              { app with hardenedCounter := app.hardenedCounter + 1 }.widgets,
              jsAssign app.barbarianRegistry el.2.token ("plugin:" ++ el.1),
              app.activated, app.hardenedCounter + 1⟩ with ⟨app2, evs2, err2⟩
        have hc := (rbc_preserves_core "plugin" el.1 cs
          ⟨{ app with hardenedCounter := app.hardenedCounter + 1 }.controllers,
            { app with hardenedCounter := app.hardenedCounter + 1 }.modules,
            { app with hardenedCounter := app.hardenedCounter + 1 }.plugins,
            { app with hardenedCounter := app.hardenedCounter + 1 }.widgets,
            jsAssign app.barbarianRegistry el.2.token ("plugin:" ++ el.1),
            app.activated, app.hardenedCounter + 1⟩).2.2.2
        have hh := rbc_no_hardened "plugin" el.1 cs
          ⟨{ app with hardenedCounter := app.hardenedCounter + 1 }.controllers,
            { app with hardenedCounter := app.hardenedCounter + 1 }.modules,
            { app with hardenedCounter := app.hardenedCounter + 1 }.plugins,
            { app with hardenedCounter := app.hardenedCounter + 1 }.widgets,
            jsAssign app.barbarianRegistry el.2.token ("plugin:" ++ el.1),
            app.activated, app.hardenedCounter + 1⟩
        rw [hres] at hc hh
        dsimp only at hc hh
        rcases err2 with _ | e <;>
          simp [hres, List.filterMap_append, hh, hc, ActEvent.hardenedId]
  · have hha' := Bool.eq_false_iff.mpr hha
    simp [hha', Bool.false_eq_true, if_false]

/-- One widgets-loop step creates exactly one fresh Hardened Registry View
when the widget exposes `activate`, and none otherwise. -/
theorem widgetBody_counter_ids (app : App) (el : String × Comp) :
    (widgetBody app el).1.hardenedCounter =
        app.hardenedCounter + (if el.2.hasActivate = true then 1 else 0) ∧
    (widgetBody app el).2.filterMap ActEvent.hardenedId =
        (if el.2.hasActivate = true then [app.hardenedCounter] else []) := by
  unfold widgetBody
  by_cases hha : el.2.hasActivate = true
  · simp only [hha, if_true]
    by_cases hth : el.2.throws = true
    · simp [hth, ActEvent.hardenedId]
    · have hth' := Bool.eq_false_iff.mpr hth
      simp only [hth', Bool.false_eq_true, if_false]
      rcases hch : el.2.children with _ | cs
      · simp [ActEvent.hardenedId]
      · rcases hres : registerBarbarianChildren "widget" el.1 cs
            ⟨{ app with hardenedCounter := app.hardenedCounter + 1 }.controllers,
              { app with hardenedCounter := app.hardenedCounter + 1 }.modules,
              { app with hardenedCounter := app.hardenedCounter + 1 }.plugins,
              { app with hardenedCounter := app.hardenedCounter + 1 }.widgets,
              jsAssign app.barbarianRegistry el.2.token ("widget:" ++ el.1),
              app.activated, app.hardenedCounter + 1⟩ with ⟨app2, evs2, err2⟩
        have hc := (rbc_preserves_core "widget" el.1 cs
          ⟨{ app with hardenedCounter := app.hardenedCounter + 1 }.controllers,
            { app with hardenedCounter := app.hardenedCounter + 1 }.modules,
            { app with hardenedCounter := app.hardenedCounter + 1 }.plugins,
            { app with hardenedCounter := app.hardenedCounter + 1 }.widgets,
            jsAssign app.barbarianRegistry el.2.token ("widget:" ++ el.1),
            app.activated, app.hardenedCounter + 1⟩).2.2.2
        have hh := rbc_no_hardened "widget" el.1 cs
          ⟨{ app with hardenedCounter := app.hardenedCounter + 1 }.controllers,
            { app with hardenedCounter := app.hardenedCounter + 1 }.modules,
            { app with hardenedCounter := app.hardenedCounter + 1 }.plugins,
            { app with hardenedCounter := app.hardenedCounter + 1 }.widgets,
            jsAssign app.barbarianRegistry el.2.token ("widget:" ++ el.1),
            app.activated, app.hardenedCounter + 1⟩
        rw [hres] at hc hh
        dsimp only at hc hh
        rcases err2 with _ | e <;>
          simp [hres, List.filterMap_append, hh, hc, ActEvent.hardenedId]
  · have hha' := Bool.eq_false_iff.mpr hha
    simp [hha', Bool.false_eq_true, if_false]

/-- A plugin exposing a non-throwing `activate` gets its activation event. -/
theorem pluginBody_mem_activate (app : App) (el : String × Comp)
    (hha : el.2.hasActivate = true) (hth : el.2.throws = false) :
    ∃ hid, ActEvent.pluginActivate el.1 hid ∈ (pluginBody app el).2 := by
  unfold pluginBody
  simp only [hha, if_true, hth, Bool.false_eq_true, if_false]
  rcases hch : el.2.children with _ | cs
  · exact ⟨app.hardenedCounter, by simp⟩
  · rcases hres : registerBarbarianChildren "plugin" el.1 cs
        ⟨{ app with hardenedCounter := app.hardenedCounter + 1 }.controllers,
          { app with hardenedCounter := app.hardenedCounter + 1 }.modules,
          { app with hardenedCounter := app.hardenedCounter + 1 }.plugins,
          { app with hardenedCounter := app.hardenedCounter + 1 }.widgets,
          jsAssign app.barbarianRegistry el.2.token ("plugin:" ++ el.1),
          app.activated, app.hardenedCounter + 1⟩ with ⟨app2, evs2, err2⟩
    rcases err2 with _ | e <;> exact ⟨app.hardenedCounter, by simp [hres]⟩

/-- A plugin exposing a throwing `activate` has the failure logged. -/
theorem pluginBody_mem_error (app : App) (el : String × Comp)
    (hha : el.2.hasActivate = true) (hth : el.2.throws = true) :
    ActEvent.errorLogged el.1 ∈ (pluginBody app el).2 := by
  unfold pluginBody
  simp [hha, hth]

/-- A widget exposing a non-throwing `activate` gets its activation event. -/
theorem widgetBody_mem_activate (app : App) (el : String × Comp)
    (hha : el.2.hasActivate = true) (hth : el.2.throws = false) :
    ∃ hid, ActEvent.widgetActivate el.1 hid ∈ (widgetBody app el).2 := by
  unfold widgetBody
  simp only [hha, if_true, hth, Bool.false_eq_true, if_false]
  rcases hch : el.2.children with _ | cs
  · exact ⟨app.hardenedCounter, by simp⟩
  · rcases hres : registerBarbarianChildren "widget" el.1 cs
        ⟨{ app with hardenedCounter := app.hardenedCounter + 1 }.controllers,
          { app with hardenedCounter := app.hardenedCounter + 1 }.modules,
          { app with hardenedCounter := app.hardenedCounter + 1 }.plugins,
          { app with hardenedCounter := app.hardenedCounter + 1 }.widgets,
          jsAssign app.barbarianRegistry el.2.token ("widget:" ++ el.1),
          app.activated, app.hardenedCounter + 1⟩ with ⟨app2, evs2, err2⟩
    rcases err2 with _ | e <;> exact ⟨app.hardenedCounter, by simp [hres]⟩

/-- A widget exposing a throwing `activate` has the failure logged. -/
theorem widgetBody_mem_error (app : App) (el : String × Comp)
    (hha : el.2.hasActivate = true) (hth : el.2.throws = true) :
    ActEvent.errorLogged el.1 ∈ (widgetBody app el).2 := by
  unfold widgetBody
  simp [hha, hth]

/-- One plugins-loop step never touches controllers, modules, the widgets
Container or the activation flag. -/
theorem pluginBody_preserves (app : App) (el : String × Comp) :
    (pluginBody app el).1.controllers = app.controllers ∧
    (pluginBody app el).1.modules = app.modules ∧
    (pluginBody app el).1.widgets = app.widgets ∧
    (pluginBody app el).1.activated = app.activated := by
  unfold pluginBody
  by_cases hha : el.2.hasActivate = true
  · simp only [hha, if_true]
    by_cases hth : el.2.throws = true
    · simp [hth]
    · have hth' := Bool.eq_false_iff.mpr hth
      simp only [hth', Bool.false_eq_true, if_false]
      rcases hch : el.2.children with _ | cs
      · simp
      · rcases hres : registerBarbarianChildren "plugin" el.1 cs
            ⟨{ app with hardenedCounter := app.hardenedCounter + 1 }.controllers,
              { app with hardenedCounter := app.hardenedCounter + 1 }.modules,
              { app with hardenedCounter := app.hardenedCounter + 1 }.plugins,
              { app with hardenedCounter := app.hardenedCounter + 1 }.widgets,
              jsAssign app.barbarianRegistry el.2.token ("plugin:" ++ el.1),
              app.activated, app.hardenedCounter + 1⟩ with ⟨app2, evs2, err2⟩
        have h1 := rbc_preserves_core "plugin" el.1 cs
          ⟨{ app with hardenedCounter := app.hardenedCounter + 1 }.controllers,
            { app with hardenedCounter := app.hardenedCounter + 1 }.modules,
            { app with hardenedCounter := app.hardenedCounter + 1 }.plugins,
            { app with hardenedCounter := app.hardenedCounter + 1 }.widgets,
            jsAssign app.barbarianRegistry el.2.token ("plugin:" ++ el.1),
            app.activated, app.hardenedCounter + 1⟩
        have h2 := rbc_plugin_preserves_widgets el.1 cs
          ⟨{ app with hardenedCounter := app.hardenedCounter + 1 }.controllers,
            { app with hardenedCounter := app.hardenedCounter + 1 }.modules,
            { app with hardenedCounter := app.hardenedCounter + 1 }.plugins,
            { app with hardenedCounter := app.hardenedCounter + 1 }.widgets,
            jsAssign app.barbarianRegistry el.2.token ("plugin:" ++ el.1),
            app.activated, app.hardenedCounter + 1⟩
        rw [hres] at h1 h2
        dsimp only at h1 h2
        rcases err2 with _ | e <;>
          simp [hres, h1.1, h1.2.1, h1.2.2.1, h2]
  · have hha' := Bool.eq_false_iff.mpr hha
    simp [hha', Bool.false_eq_true, if_false]

/-- One widgets-loop step never touches controllers, modules or the
activation flag. -/
theorem widgetBody_preserves (app : App) (el : String × Comp) :
    (widgetBody app el).1.controllers = app.controllers ∧
    (widgetBody app el).1.modules = app.modules ∧
    (widgetBody app el).1.activated = app.activated := by
  unfold widgetBody
  by_cases hha : el.2.hasActivate = true
  · simp only [hha, if_true]
    by_cases hth : el.2.throws = true
    · simp [hth]
    · have hth' := Bool.eq_false_iff.mpr hth
      simp only [hth', Bool.false_eq_true, if_false]
      rcases hch : el.2.children with _ | cs
      · simp
      · rcases hres : registerBarbarianChildren "widget" el.1 cs
            ⟨{ app with hardenedCounter := app.hardenedCounter + 1 }.controllers,
              { app with hardenedCounter := app.hardenedCounter + 1 }.modules,
              { app with hardenedCounter := app.hardenedCounter + 1 }.plugins,
              { app with hardenedCounter := app.hardenedCounter + 1 }.widgets,
              jsAssign app.barbarianRegistry el.2.token ("widget:" ++ el.1),
              app.activated, app.hardenedCounter + 1⟩ with ⟨app2, evs2, err2⟩
        have h1 := rbc_preserves_core "widget" el.1 cs
          ⟨{ app with hardenedCounter := app.hardenedCounter + 1 }.controllers,
            { app with hardenedCounter := app.hardenedCounter + 1 }.modules,
            { app with hardenedCounter := app.hardenedCounter + 1 }.plugins,
            { app with hardenedCounter := app.hardenedCounter + 1 }.widgets,
            jsAssign app.barbarianRegistry el.2.token ("widget:" ++ el.1),
            app.activated, app.hardenedCounter + 1⟩
        rw [hres] at h1
        dsimp only at h1
        rcases err2 with _ | e <;>
          simp [hres, h1.1, h1.2.1, h1.2.2.1]
  · have hha' := Bool.eq_false_iff.mpr hha
    simp [hha', Bool.false_eq_true, if_false]

/-- Lifting a per-step event property through a barbarian loop. -/
theorem runBarbarians_events_of (body : App → String × Comp → App × List ActEvent)
    (P : ActEvent → Prop)
    (hbody : ∀ a el, ∀ ev ∈ (body a el).2, P ev) :
    ∀ (l : List (String × Comp)) (a : App), ∀ ev ∈ (runBarbarians body a l).2, P ev := by
  intro l
  induction l with
  | nil =>
    intro a ev hev
    simp [runBarbarians] at hev
  | cons el rest ih =>
    intro a ev hev
    rcases h1 : body a el with ⟨a1, evs1⟩
    rcases h2 : runBarbarians body a1 rest with ⟨a2, evs2⟩
    simp [runBarbarians, h1, h2] at hev
    rcases hev with hev | hev
    · exact hbody a el ev (by rw [h1]; exact hev)
    · exact ih a1 ev (by rw [h2]; exact hev)

/-- Lifting a preserved state projection through a barbarian loop. -/
theorem runBarbarians_preserves {γ : Type} (body : App → String × Comp → App × List ActEvent)
    (f : App → γ) (hbody : ∀ a el, f (body a el).1 = f a) :
    ∀ (l : List (String × Comp)) (a : App), f (runBarbarians body a l).1 = f a := by
  intro l
  induction l with
  | nil =>
    intro a
    rfl
  | cons el rest ih =>
    intro a
    rcases h1 : body a el with ⟨a1, evs1⟩
    rcases h2 : runBarbarians body a1 rest with ⟨a2, evs2⟩
    have hb := hbody a el
    rw [h1] at hb
    have hi := ih a1
    rw [h2] at hi
    simp [runBarbarians, h1, h2]
    rw [hi, hb]

/-- Lifting a per-step event guarantee for marked entries through a
barbarian loop. -/
theorem runBarbarians_mem_of (body : App → String × Comp → App × List ActEvent)
    (R : String × Comp → Prop) (Q : String × Comp → ActEvent → Prop)
    (hbody : ∀ a el, R el → ∃ ev ∈ (body a el).2, Q el ev) :
    ∀ (l : List (String × Comp)) (a : App) (el : String × Comp), el ∈ l → R el →
      ∃ ev ∈ (runBarbarians body a l).2, Q el ev := by
  intro l
  induction l with
  | nil =>
    intro a el hel
    simp at hel
  | cons hd rest ih =>
    intro a el hel hR
    rcases h1 : body a hd with ⟨a1, evs1⟩
    rcases h2 : runBarbarians body a1 rest with ⟨a2, evs2⟩
    rcases List.mem_cons.mp hel with rfl | hel'
    · rcases hbody a el hR with ⟨ev, hev, hQ⟩
      rw [h1] at hev
      exact ⟨ev, by simp [runBarbarians, h1, h2, hev], hQ⟩
    · rcases ih a1 el hel' hR with ⟨ev, hev, hQ⟩
      rw [h2] at hev
      exact ⟨ev, by simp [runBarbarians, h1, h2, hev], hQ⟩

/-- A barbarian loop advances the hardened-view counter by the number of
entries exposing `activate` and hands out exactly the corresponding
contiguous block of fresh view numbers. -/
theorem runBarbarians_counter_ids (body : App → String × Comp → App × List ActEvent)
    (hbody : ∀ a el,
      (body a el).1.hardenedCounter =
          a.hardenedCounter + (if el.2.hasActivate = true then 1 else 0) ∧
      (body a el).2.filterMap ActEvent.hardenedId =
          (if el.2.hasActivate = true then [a.hardenedCounter] else [])) :
    ∀ (l : List (String × Comp)) (a : App),
      (runBarbarians body a l).1.hardenedCounter =
          a.hardenedCounter + (l.filter (fun p => p.2.hasActivate)).length ∧
      (runBarbarians body a l).2.filterMap ActEvent.hardenedId =
          List.range' a.hardenedCounter (l.filter (fun p => p.2.hasActivate)).length := by
  intro l
  induction l with
  | nil =>
    intro a
    simp [runBarbarians]
  | cons el rest ih =>
    intro a
    rcases h1 : body a el with ⟨a1, evs1⟩
    rcases h2 : runBarbarians body a1 rest with ⟨a2, evs2⟩
    have hb := hbody a el
    rw [h1] at hb
    have hi := ih a1
    rw [h2] at hi
    by_cases hha : el.2.hasActivate = true
    · have hfil : (el :: rest).filter (fun p => p.2.hasActivate) =
          el :: rest.filter (fun p => p.2.hasActivate) := by
        simp [List.filter_cons, hha]
      rw [hfil]
      constructor
      · simp only [runBarbarians, h1, h2]
        rw [hi.1, hb.1]
        simp [hha]
        omega
      · simp only [runBarbarians, h1, h2, List.filterMap_append]
        rw [hi.2, hb.2]
        simp only [hha, if_true]
        rw [hb.1]
        simp only [hha, if_true, List.length_cons]
        rw [List.range'_succ]
        rfl
    · have hha' := Bool.eq_false_iff.mpr hha
      have hfil : (el :: rest).filter (fun p => p.2.hasActivate) =
          rest.filter (fun p => p.2.hasActivate) := by
        simp [List.filter_cons, hha']
      rw [hfil]
      constructor
      · simp only [runBarbarians, h1, h2]
        rw [hi.1, hb.1]
        simp [hha', Bool.false_eq_true, if_false]
      · simp only [runBarbarians, h1, h2, List.filterMap_append]
        rw [hi.2, hb.2]
        simp only [hha', Bool.false_eq_true, if_false, List.nil_append]
        rw [hb.1]
        simp [hha', Bool.false_eq_true, if_false]

/-- Claim C3: a throw from a controller's `activate` is not caught and
aborts the remainder of the cascade — the result carries an uncaught error,
the state is unchanged, and no module, plugin or widget activation event
(nor the flag-setting step) occurs.  A throw from a module's, plugin's or
widget's `activate` is caught and logged: when no controller throws, the
cascade finishes without an uncaught error, every non-throwing module,
plugin and widget with an `activate` still activates, every throwing one is
logged, and `isActivated()` ends up true. -/
theorem controller_throw_uncaught_others_isolated :
    (∀ app : App,
      (∃ p ∈ app.controllers.container, p.2.hasActivate = true ∧ p.2.throws = true) →
      app.activate.1 = app ∧ app.activate.2.2.isSome = true ∧
        ∀ ev ∈ app.activate.2.1,
          ev.isComponentActivation = false ∧ ev ≠ ActEvent.flagSet) ∧
    (∀ app : App,
      (∀ p ∈ app.controllers.container, p.2.hasActivate = true → p.2.throws = false) →
      app.activate.2.2 = none ∧ app.activate.1.isActivated = true ∧
      (∀ p ∈ app.modules.container, p.2.hasActivate = true →
        (p.2.throws = false → ActEvent.moduleActivate p.1 ∈ app.activate.2.1) ∧
        (p.2.throws = true → ActEvent.errorLogged p.1 ∈ app.activate.2.1)) ∧
      (∀ p ∈ app.plugins.container, p.2.hasActivate = true →
        (p.2.throws = false → ∃ hid, ActEvent.pluginActivate p.1 hid ∈ app.activate.2.1) ∧
        (p.2.throws = true → ActEvent.errorLogged p.1 ∈ app.activate.2.1)) ∧
      (∀ p ∈ app.widgets.container, p.2.hasActivate = true →
        (p.2.throws = false → ∃ hid, ActEvent.widgetActivate p.1 hid ∈ app.activate.2.1) ∧
        (p.2.throws = true → ActEvent.errorLogged p.1 ∈ app.activate.2.1))) := by
  constructor
  · intro app h
    rcases runControllers_err_of_throwing app.controllers.container h with ⟨evs, e, heq, hall⟩
    have hact : app.activate = (app, ActEvent.beehiveActivate :: evs, some e) := by
      unfold App.activate
      rw [heq]
    rw [hact]
    refine ⟨rfl, rfl, ?_⟩
    intro ev hev
    rcases List.mem_cons.mp hev with rfl | hev'
    · exact ⟨rfl, by simp⟩
    · have hc := hall ev hev'
      cases ev <;> simp_all [ActEvent.isCtrlTier, ActEvent.isComponentActivation]
  · intro app h
    rcases runControllers_none_of_no_throw app.controllers.container h with ⟨evs1, heq, _⟩
    rcases h3 : runBarbarians pluginBody app app.plugins.container with ⟨app1, evs3⟩
    rcases h4 : runBarbarians widgetBody app1 app1.widgets.container with ⟨app2, evs4⟩
    have hwpres : app1.widgets = app.widgets := by
      have := runBarbarians_preserves pluginBody (fun a => a.widgets)
        (fun a el => (pluginBody_preserves a el).2.2.1) app.plugins.container app
      rw [h3] at this
      exact this
    have hact : app.activate =
        ({ app2 with activated := true },
         ActEvent.beehiveActivate ::
           (evs1 ++ runModules app.modules.container ++ evs3 ++ evs4 ++ [ActEvent.flagSet]),
         none) := by
      unfold App.activate
      rw [heq]
      dsimp only
      rw [h3]
      dsimp only
      rw [h4]
    refine ⟨by rw [hact], by rw [hact]; rfl, ?_, ?_, ?_⟩
    · intro p hp hha
      constructor
      · intro hth
        have hm := (runModules_mem app.modules.container p hp hha).1 hth
        rw [hact]
        simp [hm]
      · intro hth
        have hm := (runModules_mem app.modules.container p hp hha).2 hth
        rw [hact]
        simp [hm]
    · intro p hp hha
      constructor
      · intro hth
        have hmem := runBarbarians_mem_of pluginBody
          (fun el => el.2.hasActivate = true ∧ el.2.throws = false)
          (fun el ev => ∃ hid, ev = ActEvent.pluginActivate el.1 hid)
          (fun a el hR => by
            rcases pluginBody_mem_activate a el hR.1 hR.2 with ⟨hid, hm⟩
            exact ⟨_, hm, hid, rfl⟩)
          app.plugins.container app p hp ⟨hha, hth⟩
        rw [h3] at hmem
        rcases hmem with ⟨ev, hev, hid, rfl⟩
        refine ⟨hid, ?_⟩
        rw [hact]
        simp [hev]
      · intro hth
        have hmem := runBarbarians_mem_of pluginBody
          (fun el => el.2.hasActivate = true ∧ el.2.throws = true)
          (fun el ev => ev = ActEvent.errorLogged el.1)
          (fun a el hR => ⟨_, pluginBody_mem_error a el hR.1 hR.2, rfl⟩)
          app.plugins.container app p hp ⟨hha, hth⟩
        rw [h3] at hmem
        rcases hmem with ⟨ev, hev, rfl⟩
        rw [hact]
        simp [hev]
    · intro p hp hha
      have hp1 : p ∈ app1.widgets.container := by rw [hwpres]; exact hp
      constructor
      · intro hth
        have hmem := runBarbarians_mem_of widgetBody
          (fun el => el.2.hasActivate = true ∧ el.2.throws = false)
          (fun el ev => ∃ hid, ev = ActEvent.widgetActivate el.1 hid)
          (fun a el hR => by
            rcases widgetBody_mem_activate a el hR.1 hR.2 with ⟨hid, hm⟩
            exact ⟨_, hm, hid, rfl⟩)
          app1.widgets.container app1 p hp1 ⟨hha, hth⟩
        rw [h4] at hmem
        rcases hmem with ⟨ev, hev, hid, rfl⟩
        refine ⟨hid, ?_⟩
        rw [hact]
        simp [hev]
      · intro hth
        have hmem := runBarbarians_mem_of widgetBody
          (fun el => el.2.hasActivate = true ∧ el.2.throws = true)
          (fun el ev => ev = ActEvent.errorLogged el.1)
          (fun a el hR => ⟨_, widgetBody_mem_error a el hR.1 hR.2, rfl⟩)
          app1.widgets.container app1 p hp1 ⟨hha, hth⟩
        rw [h4] at hmem
        rcases hmem with ⟨ev, hev, rfl⟩
        rw [hact]
        simp [hev]

/-- Witness for C3 at two concrete applications: a throwing controller
aborts with an uncaught error; a throwing module leaves no uncaught error
and the application still activates. -/
theorem controller_throw_uncaught_others_isolated_witness :
    appCtrlThrows.activate.2.2.isSome = true ∧
    appModuleThrows.activate.2.2 = none ∧
    appModuleThrows.activate.1.isActivated = true :=
  ⟨(controller_throw_uncaught_others_isolated.1 appCtrlThrows (by decide)).2.1,
   (controller_throw_uncaught_others_isolated.2 appModuleThrows (by decide)).1,
   (controller_throw_uncaught_others_isolated.2 appModuleThrows (by decide)).2.1⟩

/-- Claim C4: when every component's `activate` succeeds, the cascade is
strictly sequential — the Elevated Registry's own activation first, then
only controller events, then only module events, then only plugin-tier
events, then only widget-tier events, and finally the activation flag —
with a distinct fresh Hardened Registry View numbered out per
activate-exposing plugin and widget (never shared), and the application
ends activated. -/
theorem activation_order_and_fresh_hardened_views (app : App)
    (hc : ∀ p ∈ app.controllers.container, p.2.hasActivate = true → p.2.throws = false)
    (hm : ∀ p ∈ app.modules.container, p.2.hasActivate = true → p.2.throws = false)
    (hp : ∀ p ∈ app.plugins.container, p.2.hasActivate = true → p.2.throws = false)
    (hw : ∀ p ∈ app.widgets.container, p.2.hasActivate = true → p.2.throws = false) :
    ∃ e1 e2 e3 e4 app',
      app.activate =
        (app', ActEvent.beehiveActivate :: (e1 ++ e2 ++ e3 ++ e4 ++ [ActEvent.flagSet]),
          none) ∧
      (∀ ev ∈ e1, ev.isCtrlTier = true) ∧
      (∀ ev ∈ e2, ev.isModTier = true) ∧
      (∀ ev ∈ e3, ev.isPluginTier = true) ∧
      (∀ ev ∈ e4, ev.isWidgetTier = true) ∧
      ((e3 ++ e4).filterMap ActEvent.hardenedId).Nodup ∧
      (e3.filterMap ActEvent.hardenedId).length =
        (app.plugins.container.filter (fun p => p.2.hasActivate)).length ∧
      (e4.filterMap ActEvent.hardenedId).length =
        (app.widgets.container.filter (fun p => p.2.hasActivate)).length ∧
      app'.isActivated = true := by
  rcases runControllers_none_of_no_throw app.controllers.container hc with ⟨evs1, heq, hall1⟩
  rcases h3 : runBarbarians pluginBody app app.plugins.container with ⟨app1, evs3⟩
  rcases h4 : runBarbarians widgetBody app1 app1.widgets.container with ⟨app2, evs4⟩
  have hwpres : app1.widgets = app.widgets := by
    have := runBarbarians_preserves pluginBody (fun a => a.widgets)
      (fun a el => (pluginBody_preserves a el).2.2.1) app.plugins.container app
    rw [h3] at this
    exact this
  have hact : app.activate =
      ({ app2 with activated := true },
       ActEvent.beehiveActivate ::
         (evs1 ++ runModules app.modules.container ++ evs3 ++ evs4 ++ [ActEvent.flagSet]),
       none) := by
    unfold App.activate
    rw [heq]
    dsimp only
    rw [h3]
    dsimp only
    rw [h4]
  have hpc := runBarbarians_counter_ids pluginBody pluginBody_counter_ids
    app.plugins.container app
  rw [h3] at hpc
  have hwc := runBarbarians_counter_ids widgetBody widgetBody_counter_ids
    app1.widgets.container app1
  rw [h4] at hwc
  have hwcount : (app1.widgets.container.filter (fun p => p.2.hasActivate)).length =
      (app.widgets.container.filter (fun p => p.2.hasActivate)).length := by
    rw [hwpres]
  refine ⟨evs1, runModules app.modules.container, evs3, evs4, _, hact, hall1,
    runModules_events_of_no_throw _ hm, ?_, ?_, ?_, ?_, ?_, rfl⟩
  · have := runBarbarians_events_of pluginBody (fun ev => ev.isPluginTier = true)
      pluginBody_events_tier app.plugins.container app
    rw [h3] at this
    exact this
  · have := runBarbarians_events_of widgetBody (fun ev => ev.isWidgetTier = true)
      widgetBody_events_tier app1.widgets.container app1
    rw [h4] at this
    exact this
  · rw [List.filterMap_append, hpc.2, hwc.2, hpc.1]
    rw [List.nodup_append]
    refine ⟨List.nodup_range' _ _ _ (by omega), List.nodup_range' _ _ _ (by omega), ?_⟩
    intro x hx hx'
    rw [List.mem_range'_1] at hx hx'
    omega
  · rw [hpc.2, List.length_range']
  · rw [hwc.2, List.length_range', hwcount]

/-- Witness for C4 at a concrete application where every tier activates. -/
theorem activation_order_and_fresh_hardened_views_witness :
    appAllGood.activate.2.2 = none ∧ appAllGood.activate.1.isActivated = true := by
  rcases activation_order_and_fresh_hardened_views appAllGood
    (by decide) (by decide) (by decide) (by decide) with
    ⟨e1, e2, e3, e4, app', hact, _, _, _, _, _, _, _, hactiv⟩
  rw [hact]
  exact ⟨rfl, hactiv⟩

/-- Claim C10: a registered plugin or widget without an `activate` property
is skipped entirely by the cascade — its loop step changes no state (no
Hardened Registry View, no barbarian-registry entry, no children) and emits
no events — yet the cascade still completes and `isActivated()` becomes
true. -/
theorem passive_barbarian_skipped (n : String) (c : Comp)
    (hpassive : c.hasActivate = false) :
    (∀ app : App, pluginBody app (n, c) = (app, [])) ∧
    (∀ app : App, widgetBody app (n, c) = (app, [])) ∧
    (∀ app : App,
      ((n, c) ∈ app.plugins.container ∨ (n, c) ∈ app.widgets.container) →
      (∀ p ∈ app.controllers.container, p.2.hasActivate = true → p.2.throws = false) →
      app.activate.2.2 = none ∧ app.activate.1.isActivated = true) := by
  refine ⟨fun app => pluginBody_passive app (n, c) hpassive,
          fun app => widgetBody_passive app (n, c) hpassive, ?_⟩
  intro app _ hctrl
  rcases runControllers_none_of_no_throw app.controllers.container hctrl with ⟨evs1, heq, _⟩
  rcases h3 : runBarbarians pluginBody app app.plugins.container with ⟨app1, evs3⟩
  rcases h4 : runBarbarians widgetBody app1 app1.widgets.container with ⟨app2, evs4⟩
  have hact : app.activate =
      ({ app2 with activated := true },
       ActEvent.beehiveActivate ::
         (evs1 ++ runModules app.modules.container ++ evs3 ++ evs4 ++ [ActEvent.flagSet]),
       none) := by
    unfold App.activate
    rw [heq]
    dsimp only
    rw [h3]
    dsimp only
    rw [h4]
  rw [hact]
  exact ⟨rfl, rfl⟩

/-- Witness for C10 at a concrete application with a passive plugin and a
passive widget. -/
theorem passive_barbarian_skipped_witness :
    pluginBody appPassiveBarbarians ("P", passiveComp 51) = (appPassiveBarbarians, []) ∧
    widgetBody appPassiveBarbarians ("W", passiveComp 52) = (appPassiveBarbarians, []) ∧
    appPassiveBarbarians.activate.2.2 = none ∧
    appPassiveBarbarians.activate.1.isActivated = true :=
  ⟨(passive_barbarian_skipped "P" (passiveComp 51) (by decide)).1 appPassiveBarbarians,
   (passive_barbarian_skipped "W" (passiveComp 52) (by decide)).2.1 appPassiveBarbarians,
   ((passive_barbarian_skipped "P" (passiveComp 51) (by decide)).2.2 appPassiveBarbarians
     (Or.inl (List.Mem.head _)) (by decide)).1,
   ((passive_barbarian_skipped "P" (passiveComp 51) (by decide)).2.2 appPassiveBarbarians
     (Or.inl (List.Mem.head _)) (by decide)).2⟩

/-- Claim C2 (amended): a spawned child whose derived name already exists in
the corresponding Container makes `_registerBarbarianChildren` raise
immediately — the colliding child's object is not added and no further
children are processed (only the colliding child's token registration has
happened) — but, unlike the claim's wording, that error IS caught by the
cascade's per-component try/catch, exactly like component-level activation
failures: the only uncaught errors of the cascade come from throwing
controllers. -/
theorem child_collision_raised_but_caught :
    (∀ (pfx key : String) (cname : Option String) (ctok : String) (cobj : Comp)
       (rest : List (String × Option String × String × Comp)) (app : App),
       app.widgets.has (pfx ++ "-" ++ jsOrName cname key) = true →
       ∃ e, registerBarbarianChildren "widget" pfx ((key, cname, ctok, cobj) :: rest) app =
         ({ app with barbarianRegistry := (jsAssign app.barbarianRegistry ctok
              ("widget" ++ ":" ++ (pfx ++ "-" ++ jsOrName cname key))) },
          [ActEvent.registerToken ctok ("widget" ++ ":" ++ (pfx ++ "-" ++ jsOrName cname key))],
          some e)) ∧
    (∀ (pfx key : String) (cname : Option String) (ctok : String) (cobj : Comp)
       (rest : List (String × Option String × String × Comp)) (app : App),
       app.plugins.has (pfx ++ "-" ++ jsOrName cname key) = true →
       ∃ e, registerBarbarianChildren "plugin" pfx ((key, cname, ctok, cobj) :: rest) app =
         ({ app with barbarianRegistry := (jsAssign app.barbarianRegistry ctok
              ("plugin" ++ ":" ++ (pfx ++ "-" ++ jsOrName cname key))) },
          [ActEvent.registerToken ctok ("plugin" ++ ":" ++ (pfx ++ "-" ++ jsOrName cname key))],
          some e)) ∧
    (∀ app : App, app.activate.2.2 ≠ none →
       ∃ p ∈ app.controllers.container, p.2.hasActivate = true ∧ p.2.throws = true) := by
  refine ⟨?_, ?_, ?_⟩
  · intro pfx key cname ctok cobj rest app hcol
    refine ⟨"There already exists a widget with name: " ++ (pfx ++ "-" ++ jsOrName cname key), ?_⟩
    simp only [registerBarbarianChildren]
    simp [hcol]
  · intro pfx key cname ctok cobj rest app hcol
    refine ⟨"There already exists a plugin with name: " ++ (pfx ++ "-" ++ jsOrName cname key), ?_⟩
    simp only [registerBarbarianChildren]
    simp [hcol]
  · intro app hne
    rcases hc : runControllers app.controllers.container with ⟨evs, err⟩
    rcases err with _ | e
    · rcases h3 : runBarbarians pluginBody app app.plugins.container with ⟨app1, evs3⟩
      rcases h4 : runBarbarians widgetBody app1 app1.widgets.container with ⟨app2, evs4⟩
      have : app.activate.2.2 = none := by
        unfold App.activate
        rw [hc]
      exact absurd this hne
    · exact runControllers_throwing_of_err _ evs e hc

/-- Witness for C2's amended theorem: a widget-category collision and a
plugin-category collision both raise inside child registration, and a
throwing controller is the source of an uncaught cascade error. -/
theorem child_collision_raised_but_caught_witness :
    (registerBarbarianChildren "widget" "P" [("x", none, "tc", childComp)]
        appWidgetOccupied).2.2.isSome = true ∧
    (registerBarbarianChildren "plugin" "P" [("x", none, "tc", childComp)]
        appCollision).2.2.isSome = true ∧
    appCtrlThrows.controllers.container.any
        (fun p => p.2.hasActivate && p.2.throws) = true := by
  refine ⟨?_, ?_, ?_⟩
  · rcases child_collision_raised_but_caught.1 "P" "x" none "tc" childComp []
        appWidgetOccupied rfl with ⟨e, he⟩
    rw [he]
    rfl
  · rcases child_collision_raised_but_caught.2.1 "P" "x" none "tc" childComp []
        appCollision rfl with ⟨e, he⟩
    rw [he]
    rfl
  · rcases child_collision_raised_but_caught.2.2 appCtrlThrows (by decide) with ⟨p, hp, h1, h2⟩
    exact List.any_eq_true.mpr ⟨p, hp, by simp [h1, h2]⟩

/-- Claim C2 counterexample: in the concrete application where plugin `P`
spawns a child whose derived name `P-x` is already a registered plugin, the
cascade swallows the collision error — `activate` returns no uncaught
error, the error is merely logged for `P`, the colliding child did not
replace the existing `P-x` entry, and the application still activates. -/
theorem child_collision_swallowed_cex :
    appCollision.activate.2.2 = none ∧
    appCollision.activate.1.isActivated = true ∧
    ActEvent.errorLogged "P" ∈ appCollision.activate.2.1 ∧
    appCollision.activate.1.plugins.get "P-x" = some occupyingComp :=
  ⟨rfl, rfl, by decide, rfl⟩

/-- Claim C7 (amended): `getPluginOrWidgetByPubSubKey` returns `undefined`
when no barbarian-registry entry exists for the token; when an entry exists
it looks the bare name (the part after the colon of the qualified name) up
in the widgets Container first and then in the plugins Container, returning
the first hit — which is the recorded component whenever that bare name is
not simultaneously registered in the other category's Container — and
raises a fatal inconsistency error when neither Container holds the name. -/
theorem pubsub_lookup_widgets_first (app : App) (psk : String) :
    (app.getPluginOrWidgetName psk = none →
       app.getPluginOrWidgetByPubSubKey psk = .ok none) ∧
    (∀ k, app.getPluginOrWidgetName psk = some k →
       ((app.widgets.has ((jsSplit k ':').getD 1 "undefined") = true →
           app.getPluginOrWidgetByPubSubKey psk =
             .ok (app.widgets.get ((jsSplit k ':').getD 1 "undefined"))) ∧
        (app.widgets.has ((jsSplit k ':').getD 1 "undefined") = false →
         app.plugins.has ((jsSplit k ':').getD 1 "undefined") = true →
           app.getPluginOrWidgetByPubSubKey psk =
             .ok (app.plugins.get ((jsSplit k ':').getD 1 "undefined"))) ∧
        (app.widgets.has ((jsSplit k ':').getD 1 "undefined") = false →
         app.plugins.has ((jsSplit k ':').getD 1 "undefined") = false →
           app.getPluginOrWidgetByPubSubKey psk =
             .error ("Cant find barbarian with ID: " ++ psk)))) := by
  constructor
  · intro h
    unfold App.getPluginOrWidgetByPubSubKey
    rw [h]
  · intro k hk
    refine ⟨?_, ?_, ?_⟩
    · intro hw
      unfold App.getPluginOrWidgetByPubSubKey
      rw [hk]
      dsimp only
      rw [if_pos hw]
    · intro hw hp
      unfold App.getPluginOrWidgetByPubSubKey
      rw [hk]
      dsimp only
      rw [if_neg (by simpa using hw), if_pos hp]
    · intro hw hp
      unfold App.getPluginOrWidgetByPubSubKey
      rw [hk]
      dsimp only
      rw [if_neg (by simpa using hw), if_neg (by simpa using hp)]

/-- Witness for C7's amended theorem at the concrete shadowed application
(and, for the no-entry case, at an unknown token). -/
theorem pubsub_lookup_widgets_first_witness :
    appShadowed.getPluginOrWidgetByPubSubKey "missing" = .ok none ∧
    appShadowed.getPluginOrWidgetByPubSubKey "t" =
      .ok (appShadowed.widgets.get ((jsSplit "plugin:N" ':').getD 1 "undefined")) :=
  ⟨(pubsub_lookup_widgets_first appShadowed "missing").1 rfl,
   ((pubsub_lookup_widgets_first appShadowed "t").2 "plugin:N" rfl).1 rfl⟩

/-- Claim C7 counterexample: the registry entry for token `t` is the
qualified name `plugin:N`, the referenced plugins Container holds `N`
(bound to one instance), yet the call returns the widget registered under
the same bare name — not the component recorded for the token. -/
theorem pubsub_shadowed_plugin_cex :
    appShadowed.getPluginOrWidgetName "t" = some "plugin:N" ∧
    appShadowed.plugins.get "N" = some pluginN ∧
    appShadowed.getPluginOrWidgetByPubSubKey "t" = .ok (some widgetN) ∧
    appShadowed.getPluginOrWidgetByPubSubKey "t" ≠ .ok (some pluginN) := by
  refine ⟨rfl, rfl, rfl, ?_⟩
  intro h
  rw [show appShadowed.getPluginOrWidgetByPubSubKey "t" = .ok (some widgetN) from rfl] at h
  injection h with h1
  injection h1 with h2
  have h3 : (2 : Nat) = 1 := congrArg Comp.ident h2
  exact absurd h3 (by decide)

/-- Splitting a separator-free character list yields one fragment. -/
theorem splitCharsAux_no_sep (c : Char) (b : List Char) :
    ∀ acc, c ∉ b → splitCharsAux c b acc = [acc.reverse ++ b] := by
  induction b with
  | nil =>
    intro acc _
    simp [splitCharsAux]
  | cons x xs ih =>
    intro acc hb
    rw [List.mem_cons, not_or] at hb
    have hx : (x == c) = false := by
      simp only [beq_eq_false_iff_ne, ne_eq]
      exact fun hxc => hb.1 hxc.symm
    simp [splitCharsAux, hx, ih (x :: acc) hb.2]

/-- Splitting at the first separator yields the fragment before it and the
split of the remainder. -/
theorem splitCharsAux_sep (c : Char) (a : List Char) :
    ∀ (b acc : List Char), c ∉ a →
      splitCharsAux c (a ++ c :: b) acc = (acc.reverse ++ a) :: splitCharsAux c b [] := by
  induction a with
  | nil =>
    intro b acc _
    simp [splitCharsAux]
  | cons x xs ih =>
    intro b acc ha
    rw [List.mem_cons, not_or] at ha
    have hx : (x == c) = false := by
      simp only [beq_eq_false_iff_ne, ne_eq]
      exact fun hxc => ha.1 hxc.symm
    simp [splitCharsAux, hx, ih b (x :: acc) ha.2]

/-- Splitting a qualified name `cat:n` on the colon yields the category and
the bare name when neither part contains a colon. -/
theorem jsSplit_qualified (cat n : String) (hcat : ':' ∉ cat.toList)
    (hn : ':' ∉ n.toList) : jsSplit (cat ++ ":" ++ n) ':' = [cat, n] := by
  rcases cat with ⟨lc⟩
  rcases n with ⟨ln⟩
  unfold jsSplit
  have hl : ((String.mk lc ++ ":" ++ String.mk ln)).toList = lc ++ ':' :: ln := by
    simp [String.toList, String.data_append]
  rw [hl, splitCharsAux_sep ':' lc ln [] hcat, splitCharsAux_no_sep ':' ln [] hn]
  simp [String.toList]

/-- Claim C9: when the barbarian-registry entry for a token is the qualified
name `plugin:N`, `getPluginOrWidgetByPubSubKey` ignores the category and
consults the widgets Container first, so whenever a widget is registered
under the bare name `N` the call returns that widget Container entry —
regardless of what the plugins Container holds for `N`. -/
theorem pubsub_category_ignored_widgets_first (app : App) (t n : String)
    (hn : ':' ∉ n.toList)
    (hreg : app.getPluginOrWidgetName t = some ("plugin:" ++ n))
    (hw : app.widgets.has n = true) :
    app.getPluginOrWidgetByPubSubKey t = .ok (app.widgets.get n) := by
  have hq : ("plugin:" ++ n) = ("plugin" ++ ":" ++ n) := by
    rcases n with ⟨ln⟩
    rfl
  have hs : jsSplit ("plugin:" ++ n) ':' = ["plugin", n] := by
    rw [hq]
    exact jsSplit_qualified "plugin" n (by decide) hn
  unfold App.getPluginOrWidgetByPubSubKey
  rw [hreg]
  dsimp only
  rw [hs]
  simp only [List.getD_cons_succ, List.getD_cons_zero]
  rw [if_pos hw]

/-- Witness for C9 at the concrete shadowed application: the `plugin:N`
entry resolves to the widget registered under `N`. -/
theorem pubsub_category_ignored_widgets_first_witness :
    appShadowed.getPluginOrWidgetByPubSubKey "t" = .ok (appShadowed.widgets.get "N") :=
  pubsub_category_ignored_widgets_first appShadowed "t" "N" (by decide) rfl rfl

end Bumblebee
